import Mathlib

/-!
Verification of the kubeflow/trainer Python SDK core logic: a shallow
embedding of `sdk/kubeflow/trainer/utils/utils.py`,
`sdk/kubeflow/trainer/api/trainer_client.py` and
`sdk/kubeflow/trainer/constants/constants.py`.

Python `Optional` fields become `Option`, Python dicts become association
lists with distinct keys, Python exceptions become `Except String`, and the
in-place mutation of the shared trainer-registry objects becomes explicit
state passing of a `TrainerRegistry` value.
-/

deriving instance DecidableEq for Except

/-! ### Constants (from `constants/constants.py`) -/

namespace constants

def TRAINJOB_ANCESTOR_LABEL : String := "trainer.kubeflow.org/trainjob-ancestor-step"

def ACCELERATOR_LABEL : String := "trainer.kubeflow.org/accelerator"

def UNKNOWN : String := "Unknown"

/-- `utils.py` reads `constants.GPU_LABEL`; the constants file names this
value `NVIDIA_GPU_LABEL` ("nvidia.com/gpu"). -/
def GPU_LABEL : String := "nvidia.com/gpu"

def TPU_LABEL : String := "google.com/tpu"

/-- `utils.py` reads `constants.CPU_LABEL`; the constants file carries the
value as `CPU_DEVICE_TYPE` ("cpu"). -/
def CPU_LABEL : String := "cpu"

def REPLICATED_JOB_KEY : String := "jobset.sigs.k8s.io/replicatedjob-name"

def JOB_INDEX_KEY : String := "batch.kubernetes.io/job-completion-index"

def DATASET_INITIALIZER : String := "dataset-initializer"

def MODEL_INITIALIZER : String := "model-initializer"

def NODE : String := "trainer-node"

def TRAINER : String := "trainer"

def POD_PENDING : String := "Pending"

def TORCH_ENV_NUM_PROC_PER_NODE : String := "PET_NPROC_PER_NODE"

def MPI_LAUNCHER : String := "launcher"

def MPI_ENV_NUM_SLOTS_PER_NODE : String := "OMPI_MCA_orte_set_default_slots"

end constants

/-! ### Generated-model data types (the fields the SDK logic reads) -/

/-- The `actual_instance` payload of the generated quantity / int-or-string
wrapper classes: a decimal integer or a plain string.  (The float alternative
of the Python union never occurs on the code paths modelled here.) -/
inductive ApiValue where
  | int (n : Int)
  | str (s : String)
deriving DecidableEq

/-- Python `str(...)` on an `actual_instance` payload. -/
def ApiValue.toPy : ApiValue → String
  | .int n => toString n
  | .str s => s

/-- `IoK8sApimachineryPkgApiResourceQuantity` / `IntOrString`: only the
`actual_instance` accessor is read by the SDK. -/
structure Quantity where
  actualInstance : Option ApiValue := none
deriving DecidableEq

/-- `IoK8sApiCoreV1ResourceRequirements`. -/
structure ResourceRequirements where
  requests : Option (List (String × Quantity)) := none
  limits : Option (List (String × Quantity)) := none
deriving DecidableEq

/-! ### String helpers mirroring the Python string methods used by the SDK -/

/-- Splits a character list at every occurrence of `c` (Python `str.split`
with a one-character separator, which is the only form the SDK uses). -/
def splitOnChar (c : Char) : List Char → List (List Char)
  | [] => [[]]
  | x :: xs =>
    let r := splitOnChar c xs
    if x = c then [] :: r
    else
      match r with
      | [] => [[x]]
      | h :: t => (x :: h) :: t

/-- Python `s.split(sep)` for a one-character separator. -/
def pySplit (s : String) (sep : Char) : List String :=
  (splitOnChar sep s.data).map List.asString

/-- Python `str.isdigit` restricted to ASCII: non-empty and all decimal
digits. -/
def pyIsdigit (s : String) : Bool :=
  !s.data.isEmpty && s.data.all Char.isDigit

/-- Digits of a non-empty character list as a number. -/
def parseDigits : List Char → Option Nat
  | [] => none
  | cs =>
    cs.foldl
      (fun acc c =>
        acc.bind fun n => if c.isDigit then some (n * 10 + (c.toNat - '0'.toNat)) else none)
      (some 0)

/-- Python `int(s)` on the strings the SDK parses (an optional minus sign and
decimal digits; surrounding whitespace and a plus sign are not modelled). -/
def pyInt? (s : String) : Option Int :=
  match s.data with
  | '-' :: rest => (parseDigits rest).map fun n => -(n : Int)
  | l => (parseDigits l).map fun n => (n : Int)

/-! ### Device Resolver: `utils.get_container_devices` -/

/-- The tail of `get_container_devices` once a resource family matched:
`device_count = limits[key].actual_instance`, the `None` check, and
`str(device_count)`. -/
def deviceFromQuantity (device : String) (q : Quantity) :
    Except String (Option (String × String)) :=
  match q.actualInstance with
  | none => .error "Failed to get device count for resources"
  | some v => .ok (some (device, v.toPy))

/-- `utils.get_container_devices`: `.ok none` models the Python `return None`
("unknown" devices), `.error` models a raised exception. -/
def getContainerDevices (resources : Option ResourceRequirements) :
    Except String (Option (String × String)) :=
  match resources with
  | none => .ok none
  | some res =>
    match res.limits with
    | none => .ok none
    | some limits =>
      match limits.lookup constants.GPU_LABEL with
      | some q => deviceFromQuantity ((pySplit constants.GPU_LABEL '/').getD 1 "") q
      | none =>
        match limits.lookup constants.TPU_LABEL with
        | some q => deviceFromQuantity ((pySplit constants.TPU_LABEL '/').getD 1 "") q
        | none =>
          match limits.lookup constants.CPU_LABEL with
          | some q => deviceFromQuantity constants.CPU_LABEL q
          | none => .error "Unknown device type in the container resources"

/-- Whether an `Except` models a raised Python exception. -/
def isErr {ε α : Type} : Except ε α → Bool
  | .error _ => true
  | .ok _ => false

/-! ### Containers, replicated jobs and pods (generated-model fields) -/

/-- `IoK8sApiCoreV1EnvVar`. -/
structure EnvVar where
  name : String
  value : Option String := none
deriving DecidableEq

/-- `IoK8sApiCoreV1Container` (the fields the SDK reads). -/
structure Container where
  name : String
  image : Option String := none
  resources : Option ResourceRequirements := none
  env : Option (List EnvVar) := none
deriving DecidableEq

/-- `IoK8sApiCoreV1PodSpec`. -/
structure PodSpec where
  containers : List Container
deriving DecidableEq

/-- `IoK8sApiCoreV1PodStatus`. -/
structure PodStatus where
  phase : Option String := none
deriving DecidableEq

/-- `IoK8sApimachineryPkgApisMetaV1ObjectMeta` (the fields the SDK reads). -/
structure ObjectMeta where
  name : Option String := none
  labels : Option (List (String × String)) := none
deriving DecidableEq

/-- `IoK8sApiCoreV1PodTemplateSpec` inside a batch Job spec. -/
structure PodTemplateSpec where
  metadata : Option ObjectMeta := none
  spec : Option PodSpec := none
deriving DecidableEq

/-- `IoK8sApiBatchV1JobSpec` (only its pod template is read). -/
structure JobSpec where
  template : PodTemplateSpec
deriving DecidableEq

/-- The `template` of a `JobsetV1alpha2ReplicatedJob`: a Job template with
metadata and an optional Job spec. -/
structure JobTemplateSpec where
  metadata : Option ObjectMeta := none
  spec : Option JobSpec := none
deriving DecidableEq

/-- `JobsetV1alpha2ReplicatedJob`. -/
structure ReplicatedJob where
  name : String := ""
  template : JobTemplateSpec
deriving DecidableEq

/-- `IoK8sApiCoreV1Pod` (the fields `__get_trainjob_from_crd` reads). -/
structure Pod where
  metadata : Option ObjectMeta := none
  spec : Option PodSpec := none
  status : Option PodStatus := none
deriving DecidableEq

/-! ### `utils.get_runtime_trainer_container` -/

/-- The ancestor-label test of `get_runtime_trainer_container`: the Python
condition `template.metadata and template.metadata.labels and LABEL in labels`
(an empty labels dict is falsy in Python, and `in` over an empty dict is false
as well, so a plain lookup captures both). -/
def hasAncestorLabel (rjob : ReplicatedJob) : Bool :=
  match rjob.template.metadata with
  | none => false
  | some md =>
    match md.labels with
    | none => false
    | some ls => (ls.lookup constants.TRAINJOB_ANCESTOR_LABEL).isSome

/-- The container filter of `get_runtime_trainer_container`:
`container.name == TRAINER or container.name == MPI_LAUNCHER`. -/
def isTrainerOrLauncher (c : Container) : Bool :=
  c.name == constants.TRAINER || c.name == constants.MPI_LAUNCHER

/-- `utils.get_runtime_trainer_container`: raises on a replicated job whose
template has no Job spec or no pod spec, skips replicated jobs without the
ancestor label, and returns the first trainer/launcher container of the first
labelled replicated job holding one. -/
def getRuntimeTrainerContainer : List ReplicatedJob → Except String (Option Container)
  | [] => .ok none
  | rjob :: rest =>
    match rjob.template.spec with
    | none => .error "Invalid ReplicatedJob template"
    | some jspec =>
      match jspec.template.spec with
      | none => .error "Invalid ReplicatedJob template"
      | some pspec =>
        if hasAncestorLabel rjob then
          match pspec.containers.find? isTrainerOrLauncher with
          | some c => .ok (some c)
          | none => getRuntimeTrainerContainer rest
        else getRuntimeTrainerContainer rest

/-! ### Trainer profiles and the global registry (`types.py` / `constants.py`) -/

/-- Modelled from the spec: `types.TrainerType` of the SDK's `types.py`, whose
file is not part of the staged sources (only its callers are); §3 names the
custom/builtin split. -/
inductive TrainerType where
  | customTrainer
  | builtinTrainer
deriving DecidableEq

/-- Modelled from the spec: `types.Framework` of the missing `types.py`; the
members are the ones the staged `constants.py` registry uses. -/
inductive Framework where
  | torch
  | mlx
  | deepspeed
  | torchtune
deriving DecidableEq

/-- Modelled from the spec: the `types.Trainer` dataclass of the missing
`types.py` — framework enum, entrypoint, resolved accelerator type and count,
both defaulting to "Unknown" (§3 and §4.2 step 6). -/
structure Trainer where
  trainerType : TrainerType
  framework : Framework
  entrypoint : Option String := none
  accelerator : String := constants.UNKNOWN
  acceleratorCount : ApiValue := .str constants.UNKNOWN
deriving DecidableEq

/-- `constants.ALL_TRAINERS`: the image-name-to-trainer table. -/
def ALL_TRAINERS : List (String × Trainer) :=
  [ ("pytorch/pytorch",
      { trainerType := .customTrainer, framework := .torch, entrypoint := some "torchrun" }),
    ("ghcr.io/kubeflow/trainer/mlx-runtime",
      { trainerType := .customTrainer, framework := .mlx,
        entrypoint := some "mpirun --hostfile /etc/mpi/hostfile -x LD_LIBRARY_PATH=/usr/local/lib/ python3" }),
    ("ghcr.io/kubeflow/trainer/deepspeed-runtime",
      { trainerType := .customTrainer, framework := .deepspeed,
        entrypoint := some "mpirun --hostfile /etc/mpi/hostfile python3" }),
    ("ghcr.io/kubeflow/trainer/torchtune-trainer",
      { trainerType := .builtinTrainer, framework := .torchtune, entrypoint := some "tune run" }) ]

/-- `constants.DEFAULT_TRAINER`. -/
def DEFAULT_TRAINER : Trainer :=
  { trainerType := .customTrainer, framework := .torch, entrypoint := some "torchrun" }

/-- The mutable module-level registry objects (`ALL_TRAINERS` entries and
`DEFAULT_TRAINER`) that `get_runtime_trainer` aliases and mutates in place,
made explicit as a state value. -/
structure TrainerRegistry where
  allTrainers : List (String × Trainer)
  defaultTrainer : Trainer
deriving DecidableEq

/-- The registry as the module initialises it. -/
def initialTrainerRegistry : TrainerRegistry :=
  { allTrainers := ALL_TRAINERS, defaultTrainer := DEFAULT_TRAINER }

/-- Writing the mutated trainer object back: `dict.get` aliases the stored
entry when the key is present and `DEFAULT_TRAINER` otherwise, so the
in-place mutation lands on that entry or on the default. -/
def updateRegistry (reg : TrainerRegistry) (imageName : String) (t : Trainer) :
    TrainerRegistry :=
  if (reg.allTrainers.lookup imageName).isSome then
    { reg with
      allTrainers := reg.allTrainers.map fun kv => if kv.1 == imageName then (kv.1, t) else kv }
  else { reg with defaultTrainer := t }

/-! ### ML policies (`TrainerV1alpha1MLPolicy`) -/

/-- `TrainerV1alpha1TorchMLPolicySource`: `num_proc_per_node` is an
int-or-string wrapper (its `actual_instance` may be `"auto"`). -/
structure TorchMLPolicy where
  numProcPerNode : Option Quantity := none
deriving DecidableEq

/-- `TrainerV1alpha1MPIMLPolicySource`: `num_proc_per_node` is a plain int. -/
structure MPIMLPolicy where
  numProcPerNode : Option Int := none
deriving DecidableEq

/-- `TrainerV1alpha1MLPolicy`. -/
structure MLPolicy where
  torch : Option TorchMLPolicy := none
  mpi : Option MPIMLPolicy := none
  numNodes : Option Int := none
deriving DecidableEq

/-! ### `utils.get_runtime_trainer` -/

/-- The `elif ml_policy.mpi and ml_policy.mpi.num_proc_per_node` branch: a
Python int of 0 is falsy, so a zero slot count does not override. -/
def mpiOverride (mlPolicy : MLPolicy) (t : Trainer) : Trainer :=
  match mlPolicy.mpi with
  | none => t
  | some mp =>
    match mp.numProcPerNode with
    | none => t
    | some n => if n ≠ 0 then { t with acceleratorCount := .int n } else t

/-- `utils.get_runtime_trainer`, with the shared-registry mutation made
explicit: returns the resolved trainer together with the registry state
after the call's in-place writes. -/
def getRuntimeTrainer (reg : TrainerRegistry) (replicatedJobs : List ReplicatedJob)
    (mlPolicy : MLPolicy) (runtimeMetadata : ObjectMeta) :
    Except String (Trainer × TrainerRegistry) := do
  let trainerContainer ← getRuntimeTrainerContainer replicatedJobs
  match trainerContainer with
  | none => throw "Runtime does not have trainer container"
  | some c =>
    match c.image with
    | none => throw "Runtime does not have trainer container"
    | some img =>
      if img.data.isEmpty then throw "Runtime does not have trainer container" else
      let imageName := (pySplit img ':').headD ""
      let trainer0 := (reg.allTrainers.lookup imageName).getD reg.defaultTrainer
      let devices ← getContainerDevices c.resources
      let t1 :=
        match devices with
        | some (_, cnt) => { trainer0 with acceleratorCount := ApiValue.str cnt }
        | none => trainer0
      let t2 :=
        match mlPolicy.torch with
        | some tp =>
          match tp.numProcPerNode with
          | some q =>
            match q.actualInstance with
            | some (.int n) => { t1 with acceleratorCount := ApiValue.int n }
            | _ => t1
          | none => mpiOverride mlPolicy t1
        | none => mpiOverride mlPolicy t1
      let t3 :=
        match t2.acceleratorCount with
        | .int n =>
          match mlPolicy.numNodes with
          | some k => if k ≠ 0 then { t2 with acceleratorCount := ApiValue.int (n * k) } else t2
          | none => t2
        | .str _ => t2
      let t4 :=
        match runtimeMetadata.labels with
        | some ls =>
          match ls.lookup constants.ACCELERATOR_LABEL with
          | some v => { t3 with accelerator := v }
          | none => t3
        | none => t3
      return (t4, updateRegistry reg imageName t4)

/-- The accelerator count of a successful `get_runtime_trainer` call. -/
def acceleratorCountOf (r : Except String (Trainer × TrainerRegistry)) : Option ApiValue :=
  match r with
  | .ok (t, _) => some t.acceleratorCount
  | .error _ => none

/-- The registry state after a `get_runtime_trainer` call (unchanged when the
call raised before mutating). -/
def registryAfter (r : Except String (Trainer × TrainerRegistry))
    (reg : TrainerRegistry) : TrainerRegistry :=
  match r with
  | .ok (_, reg1) => reg1
  | .error _ => reg

/-! ### Step objects and step resolution -/

/-- Modelled from the spec: the `types.Step` dataclass of the missing
`types.py` — name, raw pod phase as status, owning pod name, device and
device count defaulting to "Unknown" (§3). -/
structure Step where
  name : String
  status : Option String := none
  podName : String
  device : String := constants.UNKNOWN
  deviceCount : String := constants.UNKNOWN
deriving DecidableEq

/-- The container filter of `get_trainjob_initializer_step`:
`c.name in (DATASET_INITIALIZER, MODEL_INITIALIZER)`. -/
def isInitName (c : Container) : Bool :=
  c.name == constants.DATASET_INITIALIZER || c.name == constants.MODEL_INITIALIZER

/-- `utils.get_trainjob_initializer_step`: `next(...)` raises when no
container matches; the step is then named after the container. -/
def getTrainjobInitializerStep (podName : String) (podSpec : PodSpec)
    (podStatus : Option PodStatus) : Except String Step := do
  match podSpec.containers.find? isInitName with
  | none => throw "StopIteration: Pod has no initializer container"
  | some c =>
    let base : Step :=
      { name := c.name, status := podStatus.bind PodStatus.phase, podName := podName }
    let devices ← getContainerDevices c.resources
    match devices with
    | some (d, cnt) => return { base with device := d, deviceCount := cnt }
    | none => return base

/-- One iteration of the env loop in `get_trainjob_node_step`: a digit-valued
recognized variable overrides the device count, and the MPI-slots variant on a
non-launcher replicated job shifts the step index by one. -/
def applyNodeEnv (replicatedJobName : String) (jobIndex : Int) (st : Step)
    (e : EnvVar) : Step :=
  match e.value with
  | none => st
  | some v =>
    if pyIsdigit v then
      if e.name == constants.TORCH_ENV_NUM_PROC_PER_NODE then { st with deviceCount := v }
      else if e.name == constants.MPI_ENV_NUM_SLOTS_PER_NODE then
        let st1 := { st with deviceCount := v }
        if replicatedJobName ≠ constants.MPI_LAUNCHER then
          { st1 with name := constants.NODE ++ "-" ++ toString (jobIndex + 1) }
        else st1
      else st
    else st

/-- `utils.get_trainjob_node_step`. -/
def getTrainjobNodeStep (replicatedJobName : String) (jobIndex : Int)
    (podName : String) (podSpec : PodSpec) (podStatus : Option PodStatus) :
    Except String Step := do
  match podSpec.containers.find? isTrainerOrLauncher with
  | none => throw "StopIteration: Pod has no trainer container"
  | some c =>
    let base : Step :=
      { name := constants.NODE ++ "-" ++ toString jobIndex,
        status := podStatus.bind PodStatus.phase, podName := podName }
    let devices ← getContainerDevices c.resources
    let st1 :=
      match devices with
      | some (d, cnt) => { base with device := d, deviceCount := cnt }
      | none => base
    match c.env with
    | some envs => return envs.foldl (applyNodeEnv replicatedJobName jobIndex) st1
    | none => return st1

/-- The per-pod loop body of `TrainerClient.__get_trainjob_from_crd`, carried
over the pod list.  The `lastStep` argument mirrors the Python `step` local
variable, which survives loop iterations: a pod whose replicated-job label
matches no recognized group re-appends the previous step, and raises a
`NameError` when there is none. -/
def trainjobStepsGo : List Pod → Option Step → List Step → Except String (List Step)
  | [], _, acc => .ok acc.reverse
  | pod :: rest, lastStep, acc =>
    match pod.metadata with
    | none => .error "TrainJob Pod is invalid"
    | some md =>
      match md.name with
      | none => .error "TrainJob Pod is invalid"
      | some nm =>
        if nm.data.isEmpty then .error "TrainJob Pod is invalid" else
        match md.labels with
        | none => .error "TrainJob Pod is invalid"
        | some ls =>
          if ls.isEmpty then .error "TrainJob Pod is invalid" else
          match pod.spec with
          | none => .error "TrainJob Pod is invalid"
          | some sp =>
            match ls.lookup constants.REPLICATED_JOB_KEY with
            | none => .error "KeyError: no replicatedjob-name label"
            | some rjName =>
              if rjName == constants.DATASET_INITIALIZER
                  || rjName == constants.MODEL_INITIALIZER then
                match getTrainjobInitializerStep nm sp pod.status with
                | .error e => .error e
                | .ok st => trainjobStepsGo rest (some st) (st :: acc)
              else if rjName == constants.MPI_LAUNCHER || rjName == constants.NODE then
                match ls.lookup constants.JOB_INDEX_KEY with
                | none => .error "KeyError: no job-completion-index label"
                | some idxStr =>
                  match pyInt? idxStr with
                  | none => .error "ValueError: invalid job completion index"
                  | some idx =>
                    match getTrainjobNodeStep rjName idx nm sp pod.status with
                    | .error e => .error e
                    | .ok st => trainjobStepsGo rest (some st) (st :: acc)
              else
                match lastStep with
                | none => .error "NameError: step is not defined"
                | some st => trainjobStepsGo rest (some st) (st :: acc)

/-- The step-resolution part of `TrainerClient.__get_trainjob_from_crd`
(trainer_client.py lines 514-546) as a pure function of the fetched pod
list. -/
def getTrainjobSteps (pods : List Pod) : Except String (List Step) :=
  trainjobStepsGo pods none []

/-- The names of the resolved steps, when resolution succeeds. -/
def stepNamesOf (pods : List Pod) : Option (List String) :=
  match getTrainjobSteps pods with
  | .ok steps => some (steps.map Step.name)
  | .error _ => none

/-! ### `TrainerClient.get_job_logs`: pod selection and outcome plan -/

/-- What `get_job_logs` does after resolving the target pod: return the empty
dict, enter the follow multiplexer on a container, or perform a one-shot log
fetch of a container. -/
inductive LogsOutcome where
  | emptyResult
  | followFetch (podName container : String)
  | oneShot (podName container : String)
deriving DecidableEq

/-- The pod-selection loop of `get_job_logs` (trainer_client.py lines
328-334): the last step whose status differs from "Pending" (a missing status
also differs) and whose name is the requested step or step-rank wins. -/
def selectPodGo (step : String) (nodeRank : Int) :
    List Step → Option String → Option String
  | [], acc => acc
  | c :: cs, acc =>
    selectPodGo step nodeRank cs
      (if c.status ≠ some constants.POD_PENDING then
        if c.name == step || c.name == step ++ "-" ++ toString nodeRank then some c.podName
        else acc
       else acc)

/-- The accumulated `pod_name` after the whole selection loop. -/
def selectPodName (steps : List Step) (step : String) (nodeRank : Int) : Option String :=
  selectPodGo step nodeRank steps none

/-- The control flow of `get_job_logs` up to the remote log reads, as a pure
plan over the job's resolved steps. -/
def getJobLogsPlan (steps : List Step) (follow : Bool) (step : String)
    (nodeRank : Int) : LogsOutcome :=
  match selectPodName steps step nodeRank with
  | none => .emptyResult
  | some p =>
    if follow && step == constants.NODE then .followFetch p constants.TRAINER
    else if step == constants.DATASET_INITIALIZER then .oneShot p constants.DATASET_INITIALIZER
    else if step == constants.MODEL_INITIALIZER then .oneShot p constants.MODEL_INITIALIZER
    else .oneShot p constants.TRAINER

/-! ### `TrainerClient.list_runtimes` -/

/-- `TrainerV1alpha1JobSetSpec` (only the replicated jobs are read). -/
structure JobSetSpec where
  replicatedJobs : Option (List ReplicatedJob) := none
deriving DecidableEq

/-- The `template` of a training-runtime spec. -/
structure JobSetTemplateSpec where
  spec : Option JobSetSpec := none
deriving DecidableEq

/-- `TrainerV1alpha1TrainingRuntimeSpec`. -/
structure TrainingRuntimeSpec where
  mlPolicy : Option MLPolicy := none
  template : JobSetTemplateSpec
deriving DecidableEq

/-- `TrainerV1alpha1ClusterTrainingRuntime`; `none` at the top models a
`from_dict` call that returned `None`. -/
structure ClusterTrainingRuntime where
  metadata : Option ObjectMeta := none
  spec : Option TrainingRuntimeSpec := none
deriving DecidableEq

/-- The structural-validity test of `list_runtimes` (trainer_client.py lines
104-112): the Python truthiness of `runtime and runtime.metadata and
runtime.metadata.name and runtime.spec and runtime.spec.ml_policy and
runtime.spec.template.spec and runtime.spec.template.spec.replicated_jobs`. -/
def validRuntimeObj : Option ClusterTrainingRuntime → Bool
  | none => false
  | some rt =>
    match rt.metadata with
    | none => false
    | some md =>
      match md.name with
      | none => false
      | some nm =>
        !nm.data.isEmpty &&
          match rt.spec with
          | none => false
          | some sp =>
            sp.mlPolicy.isSome &&
              match sp.template.spec with
              | none => false
              | some js =>
                match js.replicatedJobs with
                | none => false
                | some rjs => !rjs.isEmpty

/-- Modelled from the spec: `types.Runtime` as `list_runtimes` constructs it
(`types.py` is not part of the staged sources): name, trainer type, framework,
resolved accelerator count, accelerator type. -/
structure Runtime where
  name : String
  trainerType : TrainerType
  framework : Framework
  acceleratorCount : ApiValue
  accelerator : String
deriving DecidableEq

/-- The MPI half of the per-node count override (a Python int of 0 is
falsy). -/
def mpiCountOverride (mlPolicy : MLPolicy) (v : ApiValue) : ApiValue :=
  match mlPolicy.mpi with
  | none => v
  | some mp =>
    match mp.numProcPerNode with
    | none => v
    | some n => if n ≠ 0 then .int n else v

/-- Modelled from the spec: `utils.get_runtime_accelerators`, which
`list_runtimes` calls but which is absent from the staged `utils.py`.
Spec §4.2 steps 1 and 3-5: find the trainer container (hard error when the
runtime has none), take the device-resolver count (or "Unknown"), let an
explicit Torch per-node process count override it, else an MPI slot count,
and multiply an integral count by the declared node count. -/
def getRuntimeAccelerators (mlPolicy : MLPolicy) (replicatedJobs : List ReplicatedJob) :
    Except String ApiValue := do
  let c? ← getRuntimeTrainerContainer replicatedJobs
  match c? with
  | none => throw "Runtime does not have trainer container"
  | some c =>
    let devices ← getContainerDevices c.resources
    let base : ApiValue :=
      match devices with
      | some (_, cnt) => .str cnt
      | none => .str constants.UNKNOWN
    let v1 :=
      match mlPolicy.torch with
      | some tp =>
        match tp.numProcPerNode with
        | some q =>
          match q.actualInstance with
          | some (.int n) => ApiValue.int n
          | _ => base
        | none => mpiCountOverride mlPolicy base
      | none => mpiCountOverride mlPolicy base
    match v1 with
    | .int n =>
      match mlPolicy.numNodes with
      | some k => return if k ≠ 0 then .int (n * k) else v1
      | none => return v1
    | .str _ => return v1

/-- The single error every failure inside the `try` of `list_runtimes` turns
into: the blanket `except Exception` re-raises a `RuntimeError`. -/
def RUNTIME_LIST_FAILURE : String := "Failed to list ClusterTrainingRuntimes"

/-- The per-item loop of `list_runtimes` (trainer_client.py lines 99-132):
an item failing the structural check raises, the blanket handler turns any
raise into one `RuntimeError` for the whole call, and nothing is skipped. -/
def listRuntimesGo : List (Option ClusterTrainingRuntime) → List Runtime →
    Except String (List Runtime)
  | [], acc => .ok acc.reverse
  | item :: rest, acc =>
    match item with
    | none => .error RUNTIME_LIST_FAILURE
    | some rt =>
      match rt.metadata with
      | none => .error RUNTIME_LIST_FAILURE
      | some md =>
        match md.name with
        | none => .error RUNTIME_LIST_FAILURE
        | some nm =>
          if nm.data.isEmpty then .error RUNTIME_LIST_FAILURE else
          match rt.spec with
          | none => .error RUNTIME_LIST_FAILURE
          | some sp =>
            match sp.mlPolicy with
            | none => .error RUNTIME_LIST_FAILURE
            | some ml =>
              match sp.template.spec with
              | none => .error RUNTIME_LIST_FAILURE
              | some js =>
                match js.replicatedJobs with
                | none => .error RUNTIME_LIST_FAILURE
                | some rjs =>
                  if rjs.isEmpty then .error RUNTIME_LIST_FAILURE else
                  match getRuntimeAccelerators ml rjs with
                  | .error _ => .error RUNTIME_LIST_FAILURE
                  | .ok cnt =>
                    let accel :=
                      match md.labels with
                      | some ls =>
                        (ls.lookup constants.ACCELERATOR_LABEL).getD constants.UNKNOWN
                      | none => constants.UNKNOWN
                    listRuntimesGo rest
                      ({ name := nm, trainerType := .customTrainer, framework := .mlx,
                         acceleratorCount := cnt, accelerator := accel } :: acc)

/-- `TrainerClient.list_runtimes` over an already-fetched item list. -/
def listRuntimesCore (items : List (Option ClusterTrainingRuntime)) :
    Except String (List Runtime) :=
  listRuntimesGo items []

/-! ### The Log Multiplexer (`utils.wrap_log_stream`, `utils.get_log_queue_pool`
and the consumer loop of `get_job_logs`, trainer_client.py lines 353-382) -/

/-- `utils.wrap_log_stream`: the sequence a worker pushes into its queue — the
source's lines in order, then the `None` sentinel once `next` raises
`StopIteration`. -/
def wrapLogStream : List String → List (Option String)
  | [] => [none]
  | l :: ls => some l :: wrapLogStream ls

/-- One log source as the consumer sees it: the source's full line list, the
pushed records not yet consumed, the lines received so far, and the finished
flag.  The bounded queue and the worker's gradual pushing are subsumed by the
nondeterministic timeout schedule below: a poll that runs before the worker
pushed is exactly a timed-out poll. -/
structure SrcState where
  lines : List String
  queue : List (Option String)
  recvd : List String := []
  fin : Bool := false
deriving DecidableEq

/-- `utils.get_log_queue_pool`: one queue-feeding worker per stream. -/
def initPool (streams : List (List String)) : List SrcState :=
  streams.map fun ls => { lines := ls, queue := wrapLogStream ls }

/-- The inner `for _ in range(50)` batch: each `get(timeout=1)` either
delivers the next pushed record or times out, as the schedule decides (an
exhausted schedule always times out).  Returns the delivered lines, the
remaining queue, whether the sentinel was consumed, and the remaining
schedule. -/
def drainBatch : Nat → List (Option String) → List Bool →
    List String × List (Option String) × Bool × List Bool
  | 0, q, sch => ([], q, false, sch)
  | _ + 1, q, [] => ([], q, false, [])
  | fuel + 1, q, d :: sch =>
    if d then
      match q with
      | [] => ([], [], false, sch)
      | none :: q1 => ([], q1, true, sch)
      | some l :: q1 =>
        let r := drainBatch fuel q1 sch
        (l :: r.1, r.2.1, r.2.2.1, r.2.2.2)
    else ([], q, false, sch)

/-- The `for index, log_queue in enumerate(log_queue_pool)` round: `done`
holds the sources already visited this round (in reverse), and the loop
breaks as soon as every finished flag — visited or not — is set. -/
def roundGo : List SrcState → List SrcState → List Bool → List SrcState × List Bool
  | done, [], sch => (done.reverse, sch)
  | done, s :: rest, sch =>
    if done.all SrcState.fin && s.fin && rest.all SrcState.fin then
      (done.reverse ++ s :: rest, sch)
    else if s.fin then roundGo (s :: done) rest sch
    else
      let r := drainBatch 50 s.queue sch
      let s1 : SrcState := { s with queue := r.2.1, recvd := s.recvd ++ r.1, fin := r.2.2.1 }
      roundGo (s1 :: done) rest r.2.2.2

/-- The `while True` consumer loop: rounds repeat until a round ends with all
sources finished, in which case the call returns (`some`); the fuel bounds
how many rounds we unfold, `none` meaning the loop was still running. -/
def muxLoop : Nat → List SrcState → List Bool → Option (List SrcState)
  | 0, _, _ => none
  | fuel + 1, states, sch =>
    let r := roundGo [] states sch
    if r.1.all SrcState.fin then some r.1 else muxLoop fuel r.1 r.2

/-! ### Step-name signatures (for the uniqueness analysis of the step names) -/

/-- Whether an env list carries the MPI slots variable with a digit value. -/
def envHasMpiDigit (envs : List EnvVar) : Bool :=
  envs.any fun e =>
    (match e.value with
     | some v => pyIsdigit v
     | none => false) && e.name == constants.MPI_ENV_NUM_SLOTS_PER_NODE

/-- Whether a container's env carries the MPI slots variable with a
digit value — the condition under which `get_trainjob_node_step` shifts a
non-launcher step index by one. -/
def hasMpiDigitEnv (c : Container) : Bool :=
  match c.env with
  | none => false
  | some envs => envHasMpiDigit envs

/-- A label value of a pod's metadata. -/
def podLabel (p : Pod) (key : String) : Option String :=
  p.metadata.bind fun md => md.labels.bind fun ls => ls.lookup key

/-- The container `get_trainjob_node_step` would select for a pod. -/
def podNodeContainer (p : Pod) : Option Container :=
  p.spec.bind fun sp => sp.containers.find? isTrainerOrLauncher

/-- The container `get_trainjob_initializer_step` would select for a pod. -/
def podInitContainer (p : Pod) : Option Container :=
  p.spec.bind fun sp => sp.containers.find? isInitName

/-- The identity a resolved step's name is built from: one of the two
initializer classes, or a node with its final (possibly shifted) index. -/
inductive StepSig where
  | dsInit
  | mdInit
  | node (k : Int)
deriving DecidableEq

/-- The signature a pod resolves to, when its labels and containers determine
one: initializer pods are named after their matched container, node pods
after the job index, shifted by one for a non-launcher pod whose trainer
container carries a digit-valued MPI slots variable. -/
def resolvedSig (p : Pod) : Option StepSig :=
  match podLabel p constants.REPLICATED_JOB_KEY with
  | none => none
  | some rj =>
    if rj == constants.DATASET_INITIALIZER || rj == constants.MODEL_INITIALIZER then
      match podInitContainer p with
      | some c => if c.name == constants.DATASET_INITIALIZER then some .dsInit else some .mdInit
      | none => none
    else if rj == constants.MPI_LAUNCHER || rj == constants.NODE then
      match podLabel p constants.JOB_INDEX_KEY with
      | none => none
      | some idxStr =>
        match pyInt? idxStr with
        | none => none
        | some idx =>
          match podNodeContainer p with
          | some c =>
            some (.node (if rj != constants.MPI_LAUNCHER && hasMpiDigitEnv c then idx + 1 else idx))
          | none => none
    else none

/-- The step name a signature produces. -/
def sigName : StepSig → String
  | .dsInit => constants.DATASET_INITIALIZER
  | .mdInit => constants.MODEL_INITIALIZER
  | .node k => constants.NODE ++ "-" ++ toString k

/-- Whether a signature's node index is nonnegative (always true for indices
parsed from real job-completion-index labels). -/
def sigNonneg : StepSig → Prop
  | .node k => 0 ≤ k
  | _ => True

instance : DecidablePred sigNonneg := fun s => by
  cases s <;> simp [sigNonneg] <;> infer_instance

/-- The decimal digit list of a number, most significant first: the
specification `Nat.toDigitsCore` computes against. -/
def decDigits (n : Nat) : List Char :=
  if h : n < 10 then [Nat.digitChar n]
  else decDigits (n / 10) ++ [Nat.digitChar (n % 10)]
decreasing_by exact Nat.div_lt_self (by omega) (by omega)

/-! ### Concrete fixtures -/

/-- An env entry carrying the MPI slots variable with value "4". -/
def mpiSlotsEnv4 : EnvVar :=
  { name := constants.MPI_ENV_NUM_SLOTS_PER_NODE, value := some "4" }

/-- A launcher-group pod at job index 0 whose container has no recognized
override env. -/
def launcherPod0 : Pod :=
  { metadata := some
      { name := some "myjob-launcher-0-0"
        labels := some
          [(constants.REPLICATED_JOB_KEY, constants.MPI_LAUNCHER),
           (constants.JOB_INDEX_KEY, "0")] }
    spec := some { containers := [{ name := constants.MPI_LAUNCHER }] }
    status := some { phase := some "Running" } }

/-- A node-group pod whose trainer container carries the MPI slots variable
with value "4". -/
def nodePodWithSlots (idx podName : String) : Pod :=
  { metadata := some
      { name := some podName
        labels := some
          [(constants.REPLICATED_JOB_KEY, constants.NODE),
           (constants.JOB_INDEX_KEY, idx)] }
    spec := some { containers := [{ name := constants.TRAINER, env := some [mpiSlotsEnv4] }] }
    status := some { phase := some "Running" } }

/-- A node-group pod at job index 0 with no env at all. -/
def nodePodPlain0 : Pod :=
  { metadata := some
      { name := some "myjob-node-0-0"
        labels := some
          [(constants.REPLICATED_JOB_KEY, constants.NODE),
           (constants.JOB_INDEX_KEY, "0")] }
    spec := some { containers := [{ name := constants.TRAINER }] }
    status := some { phase := some "Running" } }

/-- The three-pod MPI job of the spec's example: one launcher, two nodes with
slots 4. -/
def c3Pods : List Pod :=
  [launcherPod0, nodePodWithSlots "0" "myjob-node-0-0", nodePodWithSlots "1" "myjob-node-0-1"]

/-- A launcher pod and an env-less node pod, both at job index 0. -/
def c4Pods : List Pod := [launcherPod0, nodePodPlain0]

/-- Runtime metadata carrying the trainjob-ancestor label. -/
def ancestorMeta : ObjectMeta :=
  { labels := some [(constants.TRAINJOB_ANCESTOR_LABEL, "trainer")] }

/-- A replicated job whose template carries the ancestor label and one
container. -/
def mkAncestorJob (c : Container) : ReplicatedJob :=
  { name := "node"
    template :=
      { metadata := some ancestorMeta
        spec := some { template := { spec := some { containers := [c] } } } } }

/-- A trainer container with a GPU limit of 2 on the registry image. -/
def gpuTrainerContainer : Container :=
  { name := constants.TRAINER
    image := some "pytorch/pytorch:latest"
    resources := some
      { limits := some [(constants.GPU_LABEL, { actualInstance := some (.int 2) })] } }

/-- A trainer container with no resources on the registry image. -/
def bareTrainerContainer : Container :=
  { name := constants.TRAINER, image := some "pytorch/pytorch:latest" }

/-- Replicated jobs resolving to the GPU container. -/
def c9JobsWithGpu : List ReplicatedJob := [mkAncestorJob gpuTrainerContainer]

/-- Replicated jobs resolving to the bare container. -/
def c9JobsBare : List ReplicatedJob := [mkAncestorJob bareTrainerContainer]

/-- An ML policy with no Torch or MPI override and no node count. -/
def emptyMLPolicy : MLPolicy := {}

/-- Runtime metadata with no labels. -/
def emptyMeta : ObjectMeta := {}

/-- A structurally valid fetched runtime object. -/
def c2ValidRuntime : ClusterTrainingRuntime :=
  { metadata := some { name := some "torch-distributed" }
    spec := some
      { mlPolicy := some {}
        template := { spec := some { replicatedJobs := some [mkAncestorJob bareTrainerContainer] } } } }

/-- A fetched runtime object missing its spec. -/
def c2InvalidRuntime : ClusterTrainingRuntime :=
  { metadata := some { name := some "broken" } }

/-- Three log sources of ten lines each. -/
def c8Streams : List (List String) :=
  [(List.range 10).map (fun i => "alpha-" ++ toString i),
   (List.range 10).map (fun i => "beta-" ++ toString i),
   (List.range 10).map (fun i => "gamma-" ++ toString i)]

/-- A schedule on which every poll delivers. -/
def c8Schedule : List Bool := List.replicate 40 true

/-- Steps of a job whose only name-matching step is still pending. -/
def c10Steps : List Step :=
  [{ name := "trainer-node-0", status := some "Pending", podName := "pod-a" },
   { name := "dataset-initializer", status := some "Running", podName := "pod-b" }]

/-- Whether a replicated job both carries the trainjob-ancestor label and
holds a container named after the canonical trainer or launcher. -/
def rjobTrainerable (rjob : ReplicatedJob) : Bool :=
  hasAncestorLabel rjob &&
    match rjob.template.spec with
    | none => false
    | some js =>
      match js.template.spec with
      | none => false
      | some ps => (ps.containers.find? isTrainerOrLauncher).isSome

/-- `sigNonneg` lifted over an optional signature. -/
def optSigNonneg : Option StepSig → Prop
  | some s => sigNonneg s
  | none => True

instance : DecidablePred optSigNonneg := fun o => by
  cases o <;> simp [optSigNonneg] <;> infer_instance

/-- The ML policy of the C5 scenario: a Torch elastic policy with 4 processes
per node and 2 nodes. -/
def c5Policy : MLPolicy :=
  { torch := some { numProcPerNode := some { actualInstance := some (.int 4) } }
    numNodes := some 2 }

/-- An ML policy declaring both a Torch (4) and an MPI (3) per-node count. -/
def c6Policy : MLPolicy :=
  { torch := some { numProcPerNode := some { actualInstance := some (.int 4) } }
    mpi := some { numProcPerNode := some 3 }
    numNodes := some 2 }

/-- A dataset-initializer pod. -/
def dsInitPod : Pod :=
  { metadata := some
      { name := some "myjob-dataset-initializer-0-0"
        labels := some
          [(constants.REPLICATED_JOB_KEY, constants.DATASET_INITIALIZER),
           (constants.JOB_INDEX_KEY, "0")] }
    spec := some { containers := [{ name := constants.DATASET_INITIALIZER }] }
    status := some { phase := some "Succeeded" } }

/-- A well-formed MPI pod list: one initializer, one launcher, two nodes with
the slots variable set. -/
def c4WitnessPods : List Pod :=
  [dsInitPod, launcherPod0,
   nodePodWithSlots "0" "myjob-node-0-0w", nodePodWithSlots "1" "myjob-node-0-1w"]

/-- A replicated job that carries the ancestor label but holds no container
named trainer or launcher. -/
def c7Jobs : List ReplicatedJob :=
  [{ name := "node"
     template :=
       { metadata := some ancestorMeta
         spec := some { template := { spec := some { containers := [{ name := "sidecar" }] } } } } }]

/-- The consumer-loop invariant for one source: either the sentinel has been
consumed (finished, everything received, queue drained), or the received
lines are a prefix of the source and the unconsumed queue is exactly the
rest of the pushed sequence. -/
def SrcInv (s : SrcState) : Prop :=
  (s.fin = true ∧ s.recvd = s.lines ∧ s.queue = []) ∨
  (s.fin = false ∧ ∃ k, k ≤ s.lines.length ∧ s.recvd = s.lines.take k ∧
    s.queue = (s.lines.drop k).map some ++ [none])

/-! ### Decimal representation: `Nat.repr` is injective -/

theorem except_ok_bind {ε α β : Type} (a : α) (f : α → Except ε β) :
    (Except.ok a >>= f) = f a := rfl

theorem except_error_bind {ε α β : Type} (e : ε) (f : α → Except ε β) :
    ((Except.error e : Except ε α) >>= f) = Except.error e := rfl

theorem decDigits_ne_nil (n : Nat) : decDigits n ≠ [] := by
  rw [decDigits]
  split
  · simp
  · simp

theorem toDigitsCore_eq_decDigits :
    ∀ (f n : Nat) (ds : List Char), n < f →
      Nat.toDigitsCore 10 f n ds = decDigits n ++ ds := by
  intro f
  induction f with
  | zero => intro n ds h; omega
  | succ f ih =>
    intro n ds h
    by_cases hz : n / 10 = 0
    · have hlt : n < 10 := by omega
      rw [decDigits]
      simp only [Nat.toDigitsCore, hz, if_true, hlt, dite_true]
      rw [Nat.mod_eq_of_lt hlt]
      simp
    · have hge : ¬ n < 10 := by
        intro hc
        exact hz (Nat.div_eq_of_lt hc)
      have hpos : 0 < n := by omega
      have hdiv : n / 10 < n := Nat.div_lt_self hpos (by omega)
      rw [decDigits]
      simp only [Nat.toDigitsCore, hz, if_false, hge, dite_false]
      rw [ih (n / 10) (Nat.digitChar (n % 10) :: ds) (by omega)]
      simp

theorem natRepr_eq_decDigits (n : Nat) : Nat.repr n = (decDigits n).asString := by
  have h : Nat.toDigits 10 n = decDigits n ++ [] :=
    toDigitsCore_eq_decDigits (n + 1) n [] (Nat.lt_succ_self n)
  simp only [Nat.repr, h, List.append_nil]

theorem digitChar_inj_lt : ∀ a < 10, ∀ b < 10, Nat.digitChar a = Nat.digitChar b → a = b := by
  decide

theorem decDigits_lt {n : Nat} (h : n < 10) : decDigits n = [Nat.digitChar n] := by
  conv_lhs => rw [decDigits]
  rw [dif_pos h]

theorem decDigits_ge {n : Nat} (h : ¬ n < 10) :
    decDigits n = decDigits (n / 10) ++ [Nat.digitChar (n % 10)] := by
  conv_lhs => rw [decDigits]
  rw [dif_neg h]

theorem decDigits_inj : ∀ a b : Nat, decDigits a = decDigits b → a = b := by
  intro a
  induction a using Nat.strong_induction_on with
  | _ a ih =>
    intro b h
    by_cases ha : a < 10
    · by_cases hb : b < 10
      · rw [decDigits_lt ha, decDigits_lt hb] at h
        exact digitChar_inj_lt a ha b hb (List.cons.injEq .. ▸ h).1
      · rw [decDigits_lt ha, decDigits_ge hb] at h
        have hl := congrArg List.length h
        have hnil := decDigits_ne_nil (b / 10)
        simp only [List.length_cons, List.length_append, List.length_nil] at hl
        cases hd : decDigits (b / 10) with
        | nil => exact absurd hd hnil
        | cons x xs => rw [hd] at hl; simp at hl
    · by_cases hb : b < 10
      · rw [decDigits_ge ha, decDigits_lt hb] at h
        have hl := congrArg List.length h
        have hnil := decDigits_ne_nil (a / 10)
        simp only [List.length_cons, List.length_append, List.length_nil] at hl
        cases hd : decDigits (a / 10) with
        | nil => exact absurd hd hnil
        | cons x xs => rw [hd] at hl; simp at hl
      · rw [decDigits_ge ha, decDigits_ge hb] at h
        have hparts := List.append_inj' h (by simp)
        have hdiv : a / 10 < a := Nat.div_lt_self (by omega) (by omega)
        have h1 : a / 10 = b / 10 := ih (a / 10) hdiv (b / 10) hparts.1
        have h2 : a % 10 = b % 10 := by
          have := hparts.2
          simp only [List.cons.injEq] at this
          exact digitChar_inj_lt (a % 10) (Nat.mod_lt a (by omega)) (b % 10)
            (Nat.mod_lt b (by omega)) this.1
        omega

theorem natRepr_inj : Function.Injective Nat.repr := by
  intro a b h
  rw [natRepr_eq_decDigits, natRepr_eq_decDigits] at h
  exact decDigits_inj a b (congrArg String.data h)

theorem intToString_inj_nonneg (a b : Int) (ha : 0 ≤ a) (hb : 0 ≤ b)
    (h : toString a = toString b) : a = b := by
  have hae : a = Int.ofNat a.toNat := (Int.toNat_of_nonneg ha).symm
  have hbe : b = Int.ofNat b.toNat := (Int.toNat_of_nonneg hb).symm
  rw [hae, hbe] at h ⊢
  have : Nat.repr a.toNat = Nat.repr b.toNat := h
  rw [natRepr_inj this]

/-! ### String facts for the step names -/

theorem string_data_append (a b : String) : (a ++ b).data = a.data ++ b.data := rfl

theorem string_append_left_cancel {a b c : String} (h : a ++ b = a ++ c) : b = c := by
  have hd : a.data ++ b.data = a.data ++ c.data := by
    rw [← string_data_append, ← string_data_append, h]
  exact String.ext (List.append_cancel_left hd)

theorem nodeName_inj {j k : Int} (hj : 0 ≤ j) (hk : 0 ≤ k)
    (h : constants.NODE ++ "-" ++ toString j = constants.NODE ++ "-" ++ toString k) :
    j = k :=
  intToString_inj_nonneg j k hj hk (string_append_left_cancel h)

theorem nodeName_ne_ds (k : Int) :
    constants.NODE ++ "-" ++ toString k ≠ constants.DATASET_INITIALIZER := by
  intro h
  have hd := congrArg String.data h
  rw [string_data_append] at hd
  have : (constants.NODE ++ "-").data = ['t', 'r', 'a', 'i', 'n', 'e', 'r', '-', 'n', 'o', 'd', 'e', '-'] := by decide
  rw [this] at hd
  simp [constants.DATASET_INITIALIZER] at hd

theorem nodeName_ne_md (k : Int) :
    constants.NODE ++ "-" ++ toString k ≠ constants.MODEL_INITIALIZER := by
  intro h
  have hd := congrArg String.data h
  rw [string_data_append] at hd
  have : (constants.NODE ++ "-").data = ['t', 'r', 'a', 'i', 'n', 'e', 'r', '-', 'n', 'o', 'd', 'e', '-'] := by decide
  rw [this] at hd
  simp [constants.MODEL_INITIALIZER] at hd

theorem sigName_inj : ∀ s1 s2 : StepSig, sigNonneg s1 → sigNonneg s2 →
    sigName s1 = sigName s2 → s1 = s2 := by
  intro s1 s2 h1 h2 h
  cases s1 with
  | dsInit =>
    cases s2 with
    | dsInit => rfl
    | mdInit => simp [sigName, constants.DATASET_INITIALIZER, constants.MODEL_INITIALIZER] at h
    | node k => exact absurd h.symm (nodeName_ne_ds k)
  | mdInit =>
    cases s2 with
    | dsInit => simp [sigName, constants.DATASET_INITIALIZER, constants.MODEL_INITIALIZER] at h
    | mdInit => rfl
    | node k => exact absurd h.symm (nodeName_ne_md k)
  | node j =>
    cases s2 with
    | dsInit => exact absurd h (nodeName_ne_ds j)
    | mdInit => exact absurd h (nodeName_ne_md j)
    | node k =>
      simp only [sigName] at h
      exact congrArg StepSig.node (nodeName_inj h1 h2 h)

/-! ### Claim C1 — Device Resolver on unrecognized limits -/

/-- C1 (amended): the Device Resolver returns the explicit unknown outcome
exactly when the resources or their limits mapping are absent; a present
limits mapping containing none of the three recognized keys raises an
"Unknown device type" error instead of returning unknown. -/
theorem C1_absent_unknown_present_unrecognized_raises
    (rr : ResourceRequirements) (lims : List (String × Quantity)) :
    getContainerDevices none = Except.ok none ∧
    (rr.limits = none → getContainerDevices (some rr) = Except.ok none) ∧
    (rr.limits = some lims →
      lims.lookup constants.GPU_LABEL = none →
      lims.lookup constants.TPU_LABEL = none →
      lims.lookup constants.CPU_LABEL = none →
      isErr (getContainerDevices (some rr)) = true) := by
  refine ⟨rfl, fun h => by simp [getContainerDevices, h], fun h h1 h2 h3 => ?_⟩
  simp [getContainerDevices, h, h1, h2, h3, isErr]

/-- C1 witness: the amended theorem applied to a one-key unrecognized
mapping. -/
theorem C1_witness :
    isErr (getContainerDevices
      (some { limits := some [("example.com/npu", { actualInstance := some (.int 8) })] }))
      = true :=
  (C1_absent_unknown_present_unrecognized_raises
      { limits := some [("example.com/npu", { actualInstance := some (.int 8) })] }
      [("example.com/npu", { actualInstance := some (.int 8) })]).2.2
    rfl (by decide) (by decide) (by decide)

/-- C1 counterexample: a present, non-empty limits mapping holding only an
unrecognized key makes `get_container_devices` raise, refuting "returns
unknown and never raises". -/
theorem C1_counterexample :
    isErr (getContainerDevices
      (some { limits := some [("example.com/fpga", { actualInstance := some (.int 1) })] }))
      = true := by
  decide

/-! ### Claim C3 — MPI launcher occupies step index 0 -/

/-- C3: for one launcher-group pod (job index 0) and two node-group pods
(job indices 0 and 1) whose trainer containers carry the MPI slots variable
"4", step resolution names the launcher trainer-node-0 and the node pods
trainer-node-1 and trainer-node-2, each node step with device count "4". -/
theorem C3_launcher_rank_zero_nodes_shifted :
    getTrainjobSteps c3Pods = .ok
      [{ name := "trainer-node-0", status := some "Running", podName := "myjob-launcher-0-0" },
       { name := "trainer-node-1", status := some "Running", podName := "myjob-node-0-0",
         deviceCount := "4" },
       { name := "trainer-node-2", status := some "Running", podName := "myjob-node-0-1",
         deviceCount := "4" }] := by
  decide

/-! ### Claim C9 — the registry makes get_runtime_trainer stateful -/

/-- C9: `get_runtime_trainer` is not a pure function of its arguments — on the
fresh registry a call whose container has no resource limits and whose policy
has no override yields the default "Unknown" count, but after a first call
that resolved a GPU limit of 2 on the same image, the identical second call
returns the "2" written into the shared registry object. -/
theorem C9_registry_mutation_visible :
    acceleratorCountOf
        (getRuntimeTrainer initialTrainerRegistry c9JobsBare emptyMLPolicy emptyMeta)
      = some (.str "Unknown") ∧
    acceleratorCountOf
        (getRuntimeTrainer
          (registryAfter
            (getRuntimeTrainer initialTrainerRegistry c9JobsWithGpu emptyMLPolicy emptyMeta)
            initialTrainerRegistry)
          c9JobsBare emptyMLPolicy emptyMeta)
      = some (.str "2") ∧
    ApiValue.str "Unknown" ≠ ApiValue.str "2" :=
  ⟨by decide, by decide, by decide⟩

/-! ### Claim C10 — pending-only matches yield the empty dict -/

theorem selectPodGo_none (step : String) (nodeRank : Int) :
    ∀ steps : List Step,
      (∀ c ∈ steps, (c.name = step ∨ c.name = step ++ "-" ++ toString nodeRank) →
        c.status = some constants.POD_PENDING) →
      selectPodGo step nodeRank steps none = none := by
  intro steps
  induction steps with
  | nil => intro _; rfl
  | cons c cs ih =>
    intro h
    have hacc :
        (if c.status ≠ some constants.POD_PENDING then
          if c.name == step || c.name == step ++ "-" ++ toString nodeRank then some c.podName
          else none
         else none) = none := by
      by_cases hs : c.status = some constants.POD_PENDING
      · simp [hs]
      · cases hb : (c.name == step || c.name == step ++ "-" ++ toString nodeRank) with
        | false => simp [hs, hb]
        | true =>
          exfalso
          have hm : c.name = step ∨ c.name = step ++ "-" ++ toString nodeRank := by
            rcases (Bool.or_eq_true _ _).mp hb with h' | h'
            · exact Or.inl (eq_of_beq h')
            · exact Or.inr (eq_of_beq h')
          exact hs (h c (List.mem_cons_self c cs) hm)
    simp only [selectPodGo]
    rw [hacc]
    exact ih fun p hp hm => h p (List.mem_cons_of_mem c hp) hm

/-- C10: when every step whose name matches the requested step (or step-rank)
has status Pending, `get_job_logs` resolves no pod and returns the empty dict
without fetching any logs. -/
theorem C10_no_active_matching_step_empty_logs
    (steps : List Step) (follow : Bool) (step : String) (nodeRank : Int)
    (h : ∀ c ∈ steps, (c.name = step ∨ c.name = step ++ "-" ++ toString nodeRank) →
      c.status = some constants.POD_PENDING) :
    getJobLogsPlan steps follow step nodeRank = .emptyResult := by
  have hsel : selectPodName steps step nodeRank = none :=
    selectPodGo_none step nodeRank steps h
  simp [getJobLogsPlan, hsel]

/-- C10 witness: a job whose only matching step is pending yields the
empty-dict outcome. -/
theorem C10_witness : getJobLogsPlan c10Steps false "trainer-node" 0 = .emptyResult :=
  C10_no_active_matching_step_empty_logs c10Steps false "trainer-node" 0 (by decide)

/-! ### Claim C7 — a runtime without a trainer container fails resolution -/

theorem noTrainerable_container (rjs : List ReplicatedJob)
    (h : ∀ rjob ∈ rjs, rjobTrainerable rjob = false) :
    getRuntimeTrainerContainer rjs = .ok none ∨
      isErr (getRuntimeTrainerContainer rjs) = true := by
  induction rjs with
  | nil => exact Or.inl rfl
  | cons rjob rest ih =>
    have hr := h rjob (List.mem_cons_self rjob rest)
    have hrest := ih fun r hrr => h r (List.mem_cons_of_mem _ hrr)
    cases hjs : rjob.template.spec with
    | none => exact Or.inr (by simp [getRuntimeTrainerContainer, hjs, isErr])
    | some js =>
      cases hps : js.template.spec with
      | none => exact Or.inr (by simp [getRuntimeTrainerContainer, hjs, hps, isErr])
      | some ps =>
        by_cases hl : hasAncestorLabel rjob
        · cases hf : ps.containers.find? isTrainerOrLauncher with
          | none =>
            have hred : getRuntimeTrainerContainer (rjob :: rest)
                = getRuntimeTrainerContainer rest := by
              simp [getRuntimeTrainerContainer, hjs, hps, hl, hf]
            rw [hred]
            exact hrest
          | some c =>
            exfalso
            have htr : rjobTrainerable rjob = true := by
              simp [rjobTrainerable, hl, hjs, hps, hf]
            rw [hr] at htr
            exact Bool.false_ne_true htr
        · have hred : getRuntimeTrainerContainer (rjob :: rest)
              = getRuntimeTrainerContainer rest := by
            simp [getRuntimeTrainerContainer, hjs, hps, hl]
          rw [hred]
          exact hrest

/-- C7: when no replicated job both carries the trainjob-ancestor label and
holds a container named trainer or launcher, `get_runtime_trainer` raises;
it never returns a default Trainer. -/
theorem C7_no_trainer_container_raises (reg : TrainerRegistry)
    (rjs : List ReplicatedJob) (ml : MLPolicy) (meta : ObjectMeta)
    (h : ∀ rjob ∈ rjs, rjobTrainerable rjob = false) :
    isErr (getRuntimeTrainer reg rjs ml meta) = true := by
  rcases noTrainerable_container rjs h with hok | herr
  · simp [getRuntimeTrainer, hok, except_ok_bind, isErr, throw, throwThe, MonadExceptOf.throw]
  · cases hc : getRuntimeTrainerContainer rjs with
    | error e => simp [getRuntimeTrainer, hc, except_error_bind, isErr]
    | ok v => rw [hc] at herr; simp [isErr] at herr

/-- C7 witness: a labelled replicated job holding only a sidecar container
makes resolution raise. -/
theorem C7_witness :
    isErr (getRuntimeTrainer initialTrainerRegistry c7Jobs emptyMLPolicy emptyMeta) = true :=
  C7_no_trainer_container_raises initialTrainerRegistry c7Jobs emptyMLPolicy emptyMeta
    (by decide)

/-! ### Claim C5 — Torch elastic override times node count -/

/-- C5: for a runtime resolving to a trainer container with no usable resource
limits, a Torch elastic policy declaring 4 processes per node, and 2 declared
nodes, `get_runtime_trainer` yields total accelerator count 8. -/
theorem C5_torch_elastic_times_nodes
    (reg : TrainerRegistry) (rjs : List ReplicatedJob) (meta : ObjectMeta)
    (ml : MLPolicy) (c : Container) (img : String)
    (hc : getRuntimeTrainerContainer rjs = .ok (some c))
    (himg : c.image = some img) (hne : img.data.isEmpty = false)
    (hdev : getContainerDevices c.resources = .ok none)
    (htorch : ml.torch = some { numProcPerNode := some { actualInstance := some (.int 4) } })
    (hnodes : ml.numNodes = some 2) :
    acceleratorCountOf (getRuntimeTrainer reg rjs ml meta) = some (.int 8) := by
  have hne2 : ¬ img.data = [] := by
    intro hnil
    rw [hnil] at hne
    simp at hne
  cases hml : meta.labels with
  | none =>
    simp [getRuntimeTrainer, hc, himg, hne, hne2, hdev, htorch, hnodes, hml,
      acceleratorCountOf, except_ok_bind]
  | some ls =>
    cases hl2 : ls.lookup constants.ACCELERATOR_LABEL with
    | none =>
      simp [getRuntimeTrainer, hc, himg, hne, hne2, hdev, htorch, hnodes, hml, hl2,
        acceleratorCountOf, except_ok_bind]
    | some v =>
      simp [getRuntimeTrainer, hc, himg, hne, hne2, hdev, htorch, hnodes, hml, hl2,
        acceleratorCountOf, except_ok_bind]

/-- C5 witness: the concrete two-node Torch-elastic runtime. -/
theorem C5_witness :
    acceleratorCountOf
        (getRuntimeTrainer initialTrainerRegistry c9JobsBare c5Policy emptyMeta)
      = some (.int 8) :=
  C5_torch_elastic_times_nodes initialTrainerRegistry c9JobsBare emptyMeta c5Policy
    bareTrainerContainer "pytorch/pytorch:latest"
    (by decide) (by decide) (by decide) (by decide) rfl rfl

/-! ### Claim C6 — Torch policy wins over MPI policy -/

/-- C6: when the ML policy declares both a Torch elastic policy with an
explicit integer per-node process count and an MPI per-node slot count, the
result is identical to the run with the MPI policy erased, and the per-node
count used is the Torch value (times the node count when one is declared). -/
theorem C6_torch_overrides_mpi
    (reg : TrainerRegistry) (rjs : List ReplicatedJob) (meta : ObjectMeta)
    (ml : MLPolicy) (tp : TorchMLPolicy) (q : Quantity) (n : Int)
    (mp : MPIMLPolicy) (m : Int)
    (ht : ml.torch = some tp) (hq : tp.numProcPerNode = some q)
    (hn : q.actualInstance = some (.int n))
    (hm : ml.mpi = some mp) (hmp : mp.numProcPerNode = some m) :
    getRuntimeTrainer reg rjs ml meta
      = getRuntimeTrainer reg rjs { ml with mpi := none } meta ∧
    (∀ t reg1, getRuntimeTrainer reg rjs ml meta = .ok (t, reg1) →
      t.acceleratorCount =
        match ml.numNodes with
        | some k => if k ≠ 0 then ApiValue.int (n * k) else ApiValue.int n
        | none => ApiValue.int n) := by
  constructor
  · cases hcont : getRuntimeTrainerContainer rjs with
    | error e => simp [getRuntimeTrainer, hcont, except_error_bind]
    | ok copt =>
      cases copt with
      | none => simp [getRuntimeTrainer, hcont, except_ok_bind]
      | some c =>
        cases himg : c.image with
        | none => simp [getRuntimeTrainer, hcont, himg, except_ok_bind]
        | some img =>
          by_cases hemp : img.data = []
          · simp [getRuntimeTrainer, hcont, himg, hemp, except_ok_bind]
          · cases hdev : getContainerDevices c.resources with
            | error e =>
              simp [getRuntimeTrainer, hcont, himg, hemp, hdev,
                except_ok_bind, except_error_bind]
            | ok d =>
              simp [getRuntimeTrainer, hcont, himg, hemp, hdev, ht, hq, hn,
                except_ok_bind]
  · intro t reg1 hok
    cases hcont : getRuntimeTrainerContainer rjs with
    | error e =>
      simp [getRuntimeTrainer, hcont, except_error_bind] at hok
    | ok copt =>
      cases copt with
      | none =>
        simp [getRuntimeTrainer, hcont, except_ok_bind, throw, throwThe,
          MonadExceptOf.throw] at hok
      | some c =>
        cases himg : c.image with
        | none =>
          simp [getRuntimeTrainer, hcont, himg, except_ok_bind, throw, throwThe,
            MonadExceptOf.throw] at hok
        | some img =>
          by_cases hemp : img.data = []
          · simp [getRuntimeTrainer, hcont, himg, hemp, except_ok_bind, throw, throwThe,
              MonadExceptOf.throw] at hok
          · cases hdev : getContainerDevices c.resources with
            | error e =>
              simp [getRuntimeTrainer, hcont, himg, hemp, hdev, except_ok_bind,
                except_error_bind] at hok
            | ok d =>
              simp only [getRuntimeTrainer, hcont, himg, hemp, hdev, ht, hq, hn,
                except_ok_bind, pure, Except.pure] at hok
              cases hk : ml.numNodes with
              | none =>
                rw [hk] at hok
                cases hml : meta.labels with
                | none =>
                  simp [hml, hemp] at hok
                  rw [← hok.1]
                | some ls =>
                  cases hl2 : ls.lookup constants.ACCELERATOR_LABEL with
                  | none =>
                    simp [hml, hl2, hemp] at hok
                    rw [← hok.1]
                  | some v =>
                    simp [hml, hl2, hemp] at hok
                    rw [← hok.1]
              | some k =>
                rw [hk] at hok
                by_cases hk0 : k = 0
                · subst hk0
                  cases hml : meta.labels with
                  | none =>
                    simp [hml, hemp] at hok
                    simp [← hok.1]
                  | some ls =>
                    cases hl2 : ls.lookup constants.ACCELERATOR_LABEL with
                    | none =>
                      simp [hml, hl2, hemp] at hok
                      simp [← hok.1]
                    | some v =>
                      simp [hml, hl2, hemp] at hok
                      simp [← hok.1]
                · cases hml : meta.labels with
                  | none =>
                    simp [hml, hemp, hk0] at hok
                    simp [← hok.1, hk0]
                  | some ls =>
                    cases hl2 : ls.lookup constants.ACCELERATOR_LABEL with
                    | none =>
                      simp [hml, hl2, hemp, hk0] at hok
                      simp [← hok.1, hk0]
                    | some v =>
                      simp [hml, hl2, hemp, hk0] at hok
                      simp [← hok.1, hk0]

/-- C6 witness: the concrete policy with Torch 4 and MPI 3 resolves exactly as
the same policy with MPI erased. -/
theorem C6_witness :
    getRuntimeTrainer initialTrainerRegistry c9JobsBare c6Policy emptyMeta
      = getRuntimeTrainer initialTrainerRegistry c9JobsBare { c6Policy with mpi := none }
          emptyMeta :=
  (C6_torch_overrides_mpi initialTrainerRegistry c9JobsBare emptyMeta c6Policy
    { numProcPerNode := some { actualInstance := some (.int 4) } }
    { actualInstance := some (.int 4) } 4 { numProcPerNode := some 3 } 3
    rfl rfl rfl rfl rfl).1

/-! ### Claim C2 — list_runtimes does not skip invalid runtimes -/

theorem listRuntimesGo_invalid_err (item : Option ClusterTrainingRuntime)
    (rest : List (Option ClusterTrainingRuntime)) (acc : List Runtime)
    (hin : validRuntimeObj item = false) :
    isErr (listRuntimesGo (item :: rest) acc) = true := by
  cases item with
  | none => simp [listRuntimesGo, isErr]
  | some rt =>
    cases hmd : rt.metadata with
    | none => simp [listRuntimesGo, hmd, isErr]
    | some md =>
      cases hnm : md.name with
      | none => simp [listRuntimesGo, hmd, hnm, isErr]
      | some nm =>
        cases hne : nm.data.isEmpty with
        | true => simp [listRuntimesGo, hmd, hnm, hne, isErr]
        | false =>
          cases hsp : rt.spec with
          | none => simp [listRuntimesGo, hmd, hnm, hne, hsp, isErr]
          | some sp =>
            cases hmlp : sp.mlPolicy with
            | none => simp [listRuntimesGo, hmd, hnm, hne, hsp, hmlp, isErr]
            | some ml =>
              cases hjss : sp.template.spec with
              | none => simp [listRuntimesGo, hmd, hnm, hne, hsp, hmlp, hjss, isErr]
              | some js =>
                cases hrjs : js.replicatedJobs with
                | none =>
                  simp [listRuntimesGo, hmd, hnm, hne, hsp, hmlp, hjss, hrjs, isErr]
                | some rjs =>
                  cases hre : rjs.isEmpty with
                  | true =>
                    simp [listRuntimesGo, hmd, hnm, hne, hsp, hmlp, hjss, hrjs, hre, isErr]
                  | false =>
                    exfalso
                    simp [validRuntimeObj, hmd, hnm, hne, hsp, hmlp, hjss, hrjs, hre] at hin

theorem listRuntimesGo_cons_valid (item : Option ClusterTrainingRuntime)
    (rest : List (Option ClusterTrainingRuntime)) (acc : List Runtime)
    (hv : validRuntimeObj item = true) :
    isErr (listRuntimesGo (item :: rest) acc) = true ∨
      ∃ acc2, listRuntimesGo (item :: rest) acc = listRuntimesGo rest acc2 := by
  cases item with
  | none => simp [validRuntimeObj] at hv
  | some rt =>
    cases hmd : rt.metadata with
    | none => simp [validRuntimeObj, hmd] at hv
    | some md =>
      cases hnm : md.name with
      | none => simp [validRuntimeObj, hmd, hnm] at hv
      | some nm =>
        cases hne : nm.data.isEmpty with
        | true => simp [validRuntimeObj, hmd, hnm, hne] at hv
        | false =>
          cases hsp : rt.spec with
          | none => simp [validRuntimeObj, hmd, hnm, hne, hsp] at hv
          | some sp =>
            cases hmlp : sp.mlPolicy with
            | none => simp [validRuntimeObj, hmd, hnm, hne, hsp, hmlp] at hv
            | some ml =>
              cases hjss : sp.template.spec with
              | none => simp [validRuntimeObj, hmd, hnm, hne, hsp, hmlp, hjss] at hv
              | some js =>
                cases hrjs : js.replicatedJobs with
                | none => simp [validRuntimeObj, hmd, hnm, hne, hsp, hmlp, hjss, hrjs] at hv
                | some rjs =>
                  cases hre : rjs.isEmpty with
                  | true =>
                    simp [validRuntimeObj, hmd, hnm, hne, hsp, hmlp, hjss, hrjs, hre] at hv
                  | false =>
                    cases hacc : getRuntimeAccelerators ml rjs with
                    | error e =>
                      exact Or.inl (by
                        simp [listRuntimesGo, hmd, hnm, hne, hsp, hmlp, hjss, hrjs, hre,
                          hacc, isErr])
                    | ok cnt =>
                      refine Or.inr
                        ⟨({ name := nm, trainerType := .customTrainer, framework := .mlx,
                            acceleratorCount := cnt,
                            accelerator :=
                              match md.labels with
                              | some ls =>
                                (ls.lookup constants.ACCELERATOR_LABEL).getD constants.UNKNOWN
                              | none => constants.UNKNOWN } :: acc), ?_⟩
                      simp [listRuntimesGo, hmd, hnm, hne, hsp, hmlp, hjss, hrjs, hre, hacc]

theorem listRuntimesGo_invalid_anywhere :
    ∀ (items : List (Option ClusterTrainingRuntime)) (acc : List Runtime),
      (∃ it ∈ items, validRuntimeObj it = false) →
      isErr (listRuntimesGo items acc) = true := by
  intro items
  induction items with
  | nil =>
    intro acc h
    obtain ⟨it, hit, _⟩ := h
    cases hit
  | cons item rest ih =>
    intro acc h
    obtain ⟨it, hit, hval⟩ := h
    rcases List.mem_cons.mp hit with rfl | hmem
    · exact listRuntimesGo_invalid_err it rest acc hval
    · by_cases hv : validRuntimeObj item = true
      · rcases listRuntimesGo_cons_valid item rest acc hv with herr | ⟨acc2, heq⟩
        · exact herr
        · rw [heq]
          exact ih acc2 ⟨it, hmem, hval⟩
      · exact listRuntimesGo_invalid_err item rest acc (by
          cases hb : validRuntimeObj item
          · rfl
          · exact absurd hb hv)

/-- C2 (amended): `list_runtimes` does not skip a fetched runtime object that
is missing required structural fields — any such object makes the whole call
raise the blanket RuntimeError, so one invalid runtime prevents every valid
runtime from being returned. -/
theorem C2_invalid_runtime_fails_whole_list
    (items : List (Option ClusterTrainingRuntime))
    (h : ∃ it ∈ items, validRuntimeObj it = false) :
    isErr (listRuntimesCore items) = true :=
  listRuntimesGo_invalid_anywhere items [] h

/-- C2 witness: a list holding one valid and one spec-less runtime raises. -/
theorem C2_witness :
    isErr (listRuntimesCore [some c2ValidRuntime, some c2InvalidRuntime]) = true :=
  C2_invalid_runtime_fails_whole_list [some c2ValidRuntime, some c2InvalidRuntime]
    ⟨some c2InvalidRuntime, by decide, by decide⟩

/-- C2 counterexample: the same valid runtime is returned when listed alone,
but adding a structurally invalid runtime makes the whole call raise instead
of skipping it — refuting "skips ... without failing the whole call". -/
theorem C2_counterexample :
    isErr (listRuntimesCore [some c2InvalidRuntime, some c2ValidRuntime]) = true ∧
    listRuntimesCore [some c2ValidRuntime]
      = .ok [{ name := "torch-distributed", trainerType := .customTrainer, framework := .mlx,
               acceleratorCount := .str "Unknown", accelerator := "Unknown" }] :=
  ⟨by decide, by decide⟩

/-! ### Claim C4 — step-name uniqueness -/

theorem applyNodeEnv_name_preserved (r : String) (idx : Int) (st : Step) (e : EnvVar)
    (h : ¬ (((match e.value with
              | some v => pyIsdigit v
              | none => false) && e.name == constants.MPI_ENV_NUM_SLOTS_PER_NODE) = true
            ∧ r ≠ constants.MPI_LAUNCHER)) :
    (applyNodeEnv r idx st e).name = st.name := by
  unfold applyNodeEnv
  cases hev : e.value with
  | none => rfl
  | some v =>
    by_cases hd : pyIsdigit v
    · by_cases ht : e.name == constants.TORCH_ENV_NUM_PROC_PER_NODE
      · simp [hd, ht]
      · by_cases hmn : e.name == constants.MPI_ENV_NUM_SLOTS_PER_NODE
        · by_cases hr : r = constants.MPI_LAUNCHER
          · simp [hd, ht, hmn, hr]
          · exact absurd ⟨by simp [hev, hd, hmn], hr⟩ h
        · simp [hd, ht, hmn]
    · simp [hd]

theorem applyNodeEnv_name_shifted (r : String) (idx : Int) (st : Step) (e : EnvVar)
    (hdig : ((match e.value with
              | some v => pyIsdigit v
              | none => false) && e.name == constants.MPI_ENV_NUM_SLOTS_PER_NODE) = true)
    (hr : r ≠ constants.MPI_LAUNCHER) :
    (applyNodeEnv r idx st e).name = constants.NODE ++ "-" ++ toString (idx + 1) := by
  rw [Bool.and_eq_true] at hdig
  obtain ⟨hv, hn⟩ := hdig
  cases hev : e.value with
  | none => rw [hev] at hv; simp at hv
  | some v =>
    rw [hev] at hv
    have hnt : ¬ e.name == constants.TORCH_ENV_NUM_PROC_PER_NODE := by
      intro hc
      have h1 := eq_of_beq hn
      have h2 := eq_of_beq hc
      rw [h2] at h1
      simp [constants.TORCH_ENV_NUM_PROC_PER_NODE, constants.MPI_ENV_NUM_SLOTS_PER_NODE] at h1
    simp only [] at hv
    unfold applyNodeEnv
    simp [hev, hv, hnt, hn, hr]

theorem foldNodeEnv_name (r : String) (idx : Int) :
    ∀ (es : List EnvVar) (st : Step),
      (es.foldl (applyNodeEnv r idx) st).name =
        if r ≠ constants.MPI_LAUNCHER ∧ envHasMpiDigit es = true then
          constants.NODE ++ "-" ++ toString (idx + 1)
        else st.name := by
  intro es
  induction es with
  | nil => intro st; simp [envHasMpiDigit]
  | cons e es ih =>
    intro st
    rw [List.foldl_cons, ih (applyNodeEnv r idx st e)]
    by_cases hr : r = constants.MPI_LAUNCHER
    · rw [if_neg fun hc => hc.1 hr, if_neg fun hc => hc.1 hr]
      exact applyNodeEnv_name_preserved r idx st e fun hc => hc.2 hr
    · by_cases he : ((match e.value with
          | some v => pyIsdigit v
          | none => false) && e.name == constants.MPI_ENV_NUM_SLOTS_PER_NODE) = true
      · have hcons : envHasMpiDigit (e :: es) = true := by
          simp only [envHasMpiDigit, List.any_cons]
          rw [Bool.or_eq_true]
          exact Or.inl he
        rw [hcons]
        simp only [hr, ne_eq, not_false_eq_true, true_and, if_true]
        by_cases hes : envHasMpiDigit es = true
        · simp [hes]
        · simp only [hes, if_false]
          exact applyNodeEnv_name_shifted r idx st e he hr
      · have hcons : envHasMpiDigit (e :: es) = envHasMpiDigit es := by
          simp only [envHasMpiDigit, List.any_cons]
          cases hb : ((match e.value with
              | some v => pyIsdigit v
              | none => false) && e.name == constants.MPI_ENV_NUM_SLOTS_PER_NODE) with
          | true => exact absurd hb he
          | false => simp
        rw [hcons]
        rw [applyNodeEnv_name_preserved r idx st e (fun hc => he hc.1)]

theorem getTrainjobInitializerStep_ok_name (pn : String) (sp : PodSpec)
    (pst : Option PodStatus) (st : Step)
    (hok : getTrainjobInitializerStep pn sp pst = .ok st) :
    ∃ c, sp.containers.find? isInitName = some c ∧ isInitName c = true ∧ st.name = c.name := by
  unfold getTrainjobInitializerStep at hok
  cases hf : sp.containers.find? isInitName with
  | none =>
    rw [hf] at hok
    simp [throw, throwThe, MonadExceptOf.throw] at hok
  | some c =>
    rw [hf] at hok
    dsimp only at hok
    refine ⟨c, rfl, List.find?_some hf, ?_⟩
    cases hdev : getContainerDevices c.resources with
    | error e =>
      rw [hdev] at hok
      simp [except_error_bind] at hok
    | ok d =>
      rw [hdev] at hok
      cases d with
      | none =>
        simp [except_ok_bind, pure, Except.pure] at hok
        rw [← hok]
      | some pr =>
        obtain ⟨dv, cnt⟩ := pr
        simp [except_ok_bind, pure, Except.pure] at hok
        rw [← hok]

theorem getTrainjobNodeStep_ok_name (r : String) (idx : Int) (pn : String) (sp : PodSpec)
    (pst : Option PodStatus) (st : Step)
    (hok : getTrainjobNodeStep r idx pn sp pst = .ok st) :
    ∃ c, sp.containers.find? isTrainerOrLauncher = some c ∧
      st.name = (if r ≠ constants.MPI_LAUNCHER ∧ hasMpiDigitEnv c = true then
          constants.NODE ++ "-" ++ toString (idx + 1)
        else constants.NODE ++ "-" ++ toString idx) := by
  unfold getTrainjobNodeStep at hok
  cases hf : sp.containers.find? isTrainerOrLauncher with
  | none =>
    rw [hf] at hok
    simp [throw, throwThe, MonadExceptOf.throw] at hok
  | some c =>
    rw [hf] at hok
    dsimp only at hok
    refine ⟨c, rfl, ?_⟩
    cases hdev : getContainerDevices c.resources with
    | error e =>
      rw [hdev] at hok
      simp [except_error_bind] at hok
    | ok d =>
      rw [hdev] at hok
      cases hce : c.env with
      | none =>
        rw [hce] at hok
        simp [except_ok_bind, pure, Except.pure] at hok
        rw [← hok]
        have hm : hasMpiDigitEnv c = false := by simp [hasMpiDigitEnv, hce]
        rw [hm]
        rw [if_neg fun hc => by simp at hc]
        cases d with
        | none => rfl
        | some pr => obtain ⟨dv, cnt⟩ := pr; rfl
      | some envs =>
        rw [hce] at hok
        simp [except_ok_bind, pure, Except.pure] at hok
        rw [← hok]
        rw [foldNodeEnv_name]
        have hm : hasMpiDigitEnv c = envHasMpiDigit envs := by simp [hasMpiDigitEnv, hce]
        rw [hm]
        by_cases hcond : r ≠ constants.MPI_LAUNCHER ∧ envHasMpiDigit envs = true
        · rw [if_pos hcond, if_pos hcond]
        · rw [if_neg hcond, if_neg hcond]
          cases d with
          | none => rfl
          | some pr => obtain ⟨dv, cnt⟩ := pr; rfl

theorem stepsGo_cons (pod : Pod) (rest : List Pod) (last : Option Step)
    (acc steps : List Step)
    (hok : trainjobStepsGo (pod :: rest) last acc = .ok steps)
    (hsig : (resolvedSig pod).isSome) :
    ∃ st, st.name = ((resolvedSig pod).map sigName).getD "" ∧
      trainjobStepsGo rest (some st) (st :: acc) = .ok steps := by
  cases hmd : pod.metadata with
  | none => simp [trainjobStepsGo, hmd] at hok
  | some md =>
  cases hnm : md.name with
  | none => simp [trainjobStepsGo, hmd, hnm] at hok
  | some nm =>
  cases hne : nm.data.isEmpty with
  | true => simp [trainjobStepsGo, hmd, hnm, hne] at hok
  | false =>
  cases hls : md.labels with
  | none => simp [trainjobStepsGo, hmd, hnm, hne, hls] at hok
  | some ls =>
  cases hle : ls.isEmpty with
  | true => simp [trainjobStepsGo, hmd, hnm, hne, hls, hle] at hok
  | false =>
  cases hsp : pod.spec with
  | none => simp [trainjobStepsGo, hmd, hnm, hne, hls, hle, hsp] at hok
  | some sp =>
  cases hrj : ls.lookup constants.REPLICATED_JOB_KEY with
  | none => simp [trainjobStepsGo, hmd, hnm, hne, hls, hle, hsp, hrj] at hok
  | some rjName =>
  cases hg1 : (rjName == constants.DATASET_INITIALIZER
      || rjName == constants.MODEL_INITIALIZER) with
  | true =>
    cases hstep : getTrainjobInitializerStep nm sp pod.status with
    | error e => simp [trainjobStepsGo, hmd, hnm, hne, hls, hle, hsp, hrj, hg1, hstep] at hok
    | ok st =>
      obtain ⟨c, hf, hinit, hname⟩ := getTrainjobInitializerStep_ok_name nm sp pod.status st hstep
      refine ⟨st, ?_, ?_⟩
      · have hsigv : resolvedSig pod
            = some (if c.name == constants.DATASET_INITIALIZER then .dsInit else .mdInit) := by
          simp only [resolvedSig, podLabel, hmd, hls, hrj, podInitContainer, hsp, hf,
            Option.bind_some, Option.some_bind, hg1, if_true]
          exact (apply_ite some _ _ _).symm
        rw [hsigv]
        cases hdn : (c.name == constants.DATASET_INITIALIZER) with
        | true =>
          simp only [hdn, if_true]
          rw [hname, eq_of_beq hdn]
          rfl
        | false =>
          have hmn : (c.name == constants.MODEL_INITIALIZER) = true := by
            have := hinit
            simp only [isInitName, hdn, Bool.false_or] at this
            exact this
          simp only [hdn, Bool.false_eq_true, if_false]
          rw [hname, eq_of_beq hmn]
          rfl
      · have hred : trainjobStepsGo (pod :: rest) last acc
            = trainjobStepsGo rest (some st) (st :: acc) := by
          simp [trainjobStepsGo, hmd, hnm, hne, hls, hle, hsp, hrj, hg1, hstep]
        rw [← hred]
        exact hok
  | false =>
  cases hg2 : (rjName == constants.MPI_LAUNCHER || rjName == constants.NODE) with
  | false =>
    exfalso
    have : resolvedSig pod = none := by
      simp [resolvedSig, podLabel, hmd, hls, hrj, hg1, hg2]
    rw [this] at hsig
    simp at hsig
  | true =>
  cases hji : ls.lookup constants.JOB_INDEX_KEY with
  | none => simp [trainjobStepsGo, hmd, hnm, hne, hls, hle, hsp, hrj, hg1, hg2, hji] at hok
  | some idxStr =>
  cases hpi : pyInt? idxStr with
  | none => simp [trainjobStepsGo, hmd, hnm, hne, hls, hle, hsp, hrj, hg1, hg2, hji, hpi] at hok
  | some idx =>
  cases hstep : getTrainjobNodeStep rjName idx nm sp pod.status with
  | error e =>
    simp [trainjobStepsGo, hmd, hnm, hne, hls, hle, hsp, hrj, hg1, hg2, hji, hpi, hstep] at hok
  | ok st =>
    obtain ⟨c, hf, hname⟩ := getTrainjobNodeStep_ok_name rjName idx nm sp pod.status st hstep
    refine ⟨st, ?_, ?_⟩
    · have hsigv : resolvedSig pod
          = some (.node (if (rjName != constants.MPI_LAUNCHER) && hasMpiDigitEnv c
              then idx + 1 else idx)) := by
        simp [resolvedSig, podLabel, hmd, hls, hrj, hg1, hg2, hji, hpi,
          podNodeContainer, hsp, hf]
      rw [hsigv]
      show st.name = sigName (.node (if (rjName != constants.MPI_LAUNCHER) && hasMpiDigitEnv c
        then idx + 1 else idx))
      rw [hname]
      simp only [sigName]
      by_cases hc : rjName ≠ constants.MPI_LAUNCHER ∧ hasMpiDigitEnv c = true
      · have hb : ((rjName != constants.MPI_LAUNCHER) && hasMpiDigitEnv c) = true := by
          rw [Bool.and_eq_true, bne_iff_ne]
          exact ⟨hc.1, hc.2⟩
        rw [if_pos hc, hb]
        rfl
      · have hb : ((rjName != constants.MPI_LAUNCHER) && hasMpiDigitEnv c) = false := by
          cases hbv : ((rjName != constants.MPI_LAUNCHER) && hasMpiDigitEnv c) with
          | false => rfl
          | true =>
            exfalso
            rw [Bool.and_eq_true, bne_iff_ne] at hbv
            exact hc hbv
        rw [if_neg hc, hb]
        rfl
    · have hred : trainjobStepsGo (pod :: rest) last acc
          = trainjobStepsGo rest (some st) (st :: acc) := by
        simp [trainjobStepsGo, hmd, hnm, hne, hls, hle, hsp, hrj, hg1, hg2, hji, hpi, hstep]
      rw [← hred]
      exact hok

theorem stepsGo_names :
    ∀ (pods : List Pod) (last : Option Step) (acc steps : List Step),
      trainjobStepsGo pods last acc = .ok steps →
      (∀ p ∈ pods, (resolvedSig p).isSome) →
      steps.map Step.name
        = acc.reverse.map Step.name
          ++ pods.map fun p => ((resolvedSig p).map sigName).getD "" := by
  intro pods
  induction pods with
  | nil =>
    intro last acc steps hok _
    simp only [trainjobStepsGo] at hok
    injection hok with hsteps
    rw [← hsteps]
    simp
  | cons pod rest ih =>
    intro last acc steps hok hsig
    obtain ⟨st, hname, hrec⟩ :=
      stepsGo_cons pod rest last acc steps hok (hsig pod (List.mem_cons_self pod rest))
    have hmap := ih (some st) (st :: acc) steps hrec
      fun p hp => hsig p (List.mem_cons_of_mem _ hp)
    rw [hmap]
    simp only [List.reverse_cons, List.map_append, List.map_cons, List.map_nil, List.map]
    rw [List.append_assoc]
    simp [hname]

/-- C4 (amended): resolved step names are pairwise distinct for every pod
list whose pods all resolve to a step signature (one of the four recognized
replicated-job labels with the needed containers and a parseable job index),
whose resolved node indices — the job index, shifted by one for a
non-launcher pod carrying a digit-valued MPI slots variable — are
nonnegative, and whose resolved signatures are pairwise distinct.  Without
those conditions the claim fails (see the counterexample: a launcher pod and
an env-less node pod, both at job index 0, both resolve to
trainer-node-0). -/
theorem C4_unique_step_names (pods : List Pod) (steps : List Step)
    (hok : getTrainjobSteps pods = .ok steps)
    (hsig : ∀ p ∈ pods, (resolvedSig p).isSome)
    (hnn : ∀ p ∈ pods, optSigNonneg (resolvedSig p))
    (hnodup : (pods.map resolvedSig).Nodup) :
    (steps.map Step.name).Nodup := by
  have hnames := stepsGo_names pods none [] steps hok hsig
  simp only [List.reverse_nil, List.map_nil, List.nil_append] at hnames
  rw [hnames]
  have hcomp : (pods.map fun p => ((resolvedSig p).map sigName).getD "")
      = (pods.map resolvedSig).map fun o => (o.map sigName).getD "" := by
    rw [List.map_map]
    rfl
  rw [hcomp]
  refine List.Nodup.map_on ?_ hnodup
  intro o1 ho1 o2 ho2 heq
  obtain ⟨p1, hp1, ho1e⟩ := List.mem_map.mp ho1
  obtain ⟨p2, hp2, ho2e⟩ := List.mem_map.mp ho2
  rw [← ho1e, ← ho2e] at heq ⊢
  cases hs1 : resolvedSig p1 with
  | none =>
    exfalso
    have := hsig p1 hp1
    rw [hs1] at this
    simp at this
  | some s1 =>
    cases hs2 : resolvedSig p2 with
    | none =>
      exfalso
      have := hsig p2 hp2
      rw [hs2] at this
      simp at this
    | some s2 =>
      rw [hs1, hs2] at heq
      simp only [Option.map_some', Option.getD_some] at heq
      have h1 := hnn p1 hp1
      have h2 := hnn p2 hp2
      rw [hs1] at h1
      rw [hs2] at h2
      simp only [optSigNonneg] at h1 h2
      exact congrArg some (sigName_inj s1 s2 h1 h2 heq)

/-- C4 counterexample: a launcher-group pod and a node-group pod, both at job
index 0 and without the MPI slots variable, resolve to two steps that share
the name trainer-node-0 — step names are not always pairwise distinct. -/
theorem C4_counterexample :
    stepNamesOf c4Pods = some ["trainer-node-0", "trainer-node-0"] ∧
    ¬ (["trainer-node-0", "trainer-node-0"] : List String).Nodup :=
  ⟨by decide, by decide⟩

/-- C4 witness: the well-formed MPI pod list satisfies the amended conditions
and its resolved names are pairwise distinct. -/
theorem C4_witness :
    (((getTrainjobSteps c4WitnessPods).toOption.getD []).map Step.name).Nodup := by
  cases hm : getTrainjobSteps c4WitnessPods with
  | error e =>
    exfalso
    have hne : isErr (getTrainjobSteps c4WitnessPods) = false := by decide
    rw [hm] at hne
    simp [isErr] at hne
  | ok steps =>
    have := C4_unique_step_names c4WitnessPods steps hm (by decide) (by decide) (by decide)
    simpa [hm] using this


/-! ### Claim C8 — the log multiplexer -/

theorem wrapLogStream_eq : ∀ ls : List String, wrapLogStream ls = ls.map some ++ [none] := by
  intro ls
  induction ls with
  | nil => rfl
  | cons l rest ih => simp [wrapLogStream, ih]

theorem drainBatch_inv (lines : List String) :
    ∀ (fuel k : Nat) (sch : List Bool) (ds : List String)
      (q2 : List (Option String)) (saw : Bool) (sch2 : List Bool),
      k ≤ lines.length →
      drainBatch fuel ((lines.drop k).map some ++ [none]) sch = (ds, q2, saw, sch2) →
      (saw = true ∧ lines.take k ++ ds = lines ∧ q2 = []) ∨
      (saw = false ∧ ∃ k2, k ≤ k2 ∧ k2 ≤ lines.length ∧
        lines.take k ++ ds = lines.take k2 ∧
        q2 = (lines.drop k2).map some ++ [none]) := by
  intro fuel
  induction fuel with
  | zero =>
    intro k sch ds q2 saw sch2 hk heq
    simp only [drainBatch, Prod.mk.injEq] at heq
    obtain ⟨hds, hq2, hsaw, _⟩ := heq
    refine Or.inr ⟨hsaw.symm, k, le_refl k, hk, ?_, hq2.symm⟩
    rw [← hds]
    simp
  | succ fuel ih =>
    intro k sch ds q2 saw sch2 hk heq
    cases sch with
    | nil =>
      simp only [drainBatch, Prod.mk.injEq] at heq
      obtain ⟨hds, hq2, hsaw, _⟩ := heq
      refine Or.inr ⟨hsaw.symm, k, le_refl k, hk, ?_, hq2.symm⟩
      rw [← hds]
      simp
    | cons d sch1 =>
      cases d with
      | false =>
        simp only [drainBatch, Bool.false_eq_true, if_false, Prod.mk.injEq] at heq
        obtain ⟨hds, hq2, hsaw, _⟩ := heq
        refine Or.inr ⟨hsaw.symm, k, le_refl k, hk, ?_, hq2.symm⟩
        rw [← hds]
        simp
      | true =>
        cases hdrop : lines.drop k with
        | nil =>
          rw [hdrop] at heq
          simp only [List.map_nil, List.nil_append, drainBatch, if_true,
            Prod.mk.injEq] at heq
          obtain ⟨hds, hq2, hsaw, _⟩ := heq
          have hklen : lines.length ≤ k := List.drop_eq_nil_iff.mp hdrop
          have hkeq : k = lines.length := le_antisymm hk hklen
          refine Or.inl ⟨hsaw.symm, ?_, hq2.symm⟩
          rw [← hds, hkeq]
          simp [List.take_length]
        | cons l rest1 =>
          have htl : rest1 = lines.drop (k + 1) := by
            have ht := List.tail_drop lines k
            rw [hdrop] at ht
            simpa using ht
          have hlk : lines[k]? = some l := by
            have hh := List.head?_drop lines k
            rw [hdrop] at hh
            exact hh.symm
          have hk1 : k + 1 ≤ lines.length := by
            by_contra hcon
            have hle : lines.length ≤ k := by omega
            rw [List.drop_eq_nil_iff.mpr hle] at hdrop
            cases hdrop
          rw [hdrop] at heq
          simp only [List.map_cons, List.cons_append, drainBatch, if_true] at heq
          rw [htl] at heq
          rcases hres : drainBatch fuel ((lines.drop (k + 1)).map some ++ [none]) sch1 with
            ⟨ds1, q21, saw1, sch21⟩
          rw [hres] at heq
          simp only [Prod.mk.injEq] at heq
          obtain ⟨hds, hq2, hsaw, _⟩ := heq
          have htk : lines.take (k + 1) = lines.take k ++ [l] := by
            rw [List.take_succ, hlk]
            rfl
          rcases ih (k + 1) sch1 ds1 q21 saw1 sch21 hk1 hres with
            ⟨hsawt, hcat, hq⟩ | ⟨hsawf, k2, hk2a, hk2b, hcat, hq⟩
          · refine Or.inl ⟨by rw [← hsaw, hsawt], ?_, by rw [← hq2, hq]⟩
            rw [← hds]
            rw [show lines.take k ++ l :: ds1 = lines.take (k + 1) ++ ds1 from by
              rw [htk]; simp]
            exact hcat
          · refine Or.inr ⟨by rw [← hsaw, hsawf], k2, by omega, hk2b, ?_, by rw [← hq2, hq]⟩
            rw [← hds]
            rw [show lines.take k ++ l :: ds1 = lines.take (k + 1) ++ ds1 from by
              rw [htk]; simp]
            exact hcat

theorem roundGo_inv :
    ∀ (todo done : List SrcState) (sch : List Bool),
      (∀ s ∈ done, SrcInv s) → (∀ s ∈ todo, SrcInv s) →
      ∀ s ∈ (roundGo done todo sch).1, SrcInv s := by
  intro todo
  induction todo with
  | nil =>
    intro done sch hdone _ s hs
    simp only [roundGo] at hs
    rw [List.mem_reverse] at hs
    exact hdone s hs
  | cons t rest ih =>
    intro done sch hdone htodo s hs
    simp only [roundGo] at hs
    by_cases hbreak : (done.all SrcState.fin && t.fin && rest.all SrcState.fin) = true
    · rw [if_pos hbreak] at hs
      rcases List.mem_append.mp hs with h1 | h2
      · exact hdone s (List.mem_reverse.mp h1)
      · exact htodo s h2
    · rw [if_neg hbreak] at hs
      by_cases hfin : t.fin = true
      · rw [if_pos hfin] at hs
        refine ih (t :: done) sch ?_ ?_ s hs
        · intro u hu
          rcases List.mem_cons.mp hu with rfl | hu2
          · exact htodo _ (List.mem_cons_self _ _)
          · exact hdone u hu2
        · intro u hu
          exact htodo u (List.mem_cons_of_mem _ hu)
      · rw [if_neg hfin] at hs
        have htinv := htodo t (List.mem_cons_self t rest)
        rcases htinv with ⟨hft, _, _⟩ | ⟨_, k, hk, hrecvd, hqueue⟩
        · exact absurd hft hfin
        · rcases hres : drainBatch 50 t.queue sch with ⟨ds, q2, saw, sch2⟩
          rw [hres] at hs
          have hres2 : drainBatch 50 ((t.lines.drop k).map some ++ [none]) sch
              = (ds, q2, saw, sch2) := by rw [← hqueue]; exact hres
          have hinv1 : SrcInv { t with queue := q2, recvd := t.recvd ++ ds, fin := saw } := by
            rcases drainBatch_inv t.lines 50 k sch ds q2 saw sch2 hk hres2 with
              ⟨hsawt, hcat, hq⟩ | ⟨hsawf, k2, _, hk2b, hcat, hq⟩
            · exact Or.inl ⟨hsawt, by rw [hrecvd]; exact hcat, hq⟩
            · exact Or.inr ⟨hsawf, k2, hk2b, by rw [hrecvd]; exact hcat, hq⟩
          refine ih _ sch2 ?_ ?_ s hs
          · intro u hu
            rcases List.mem_cons.mp hu with rfl | hu2
            · exact hinv1
            · exact hdone u hu2
          · intro u hu
            exact htodo u (List.mem_cons_of_mem _ hu)

theorem roundGo_lines :
    ∀ (todo done : List SrcState) (sch : List Bool),
      (roundGo done todo sch).1.map SrcState.lines
        = done.reverse.map SrcState.lines ++ todo.map SrcState.lines := by
  intro todo
  induction todo with
  | nil =>
    intro done sch
    simp [roundGo]
  | cons t rest ih =>
    intro done sch
    simp only [roundGo]
    by_cases hbreak : (done.all SrcState.fin && t.fin && rest.all SrcState.fin) = true
    · rw [if_pos hbreak]
      simp
    · rw [if_neg hbreak]
      by_cases hfin : t.fin = true
      · rw [if_pos hfin, ih (t :: done) sch]
        simp
      · rw [if_neg hfin]
        rcases hres : drainBatch 50 t.queue sch with ⟨ds, q2, saw, sch2⟩
        dsimp only
        rw [ih _ sch2]
        simp

theorem muxLoop_spec :
    ∀ (fuel : Nat) (states : List SrcState) (sch : List Bool) (final : List SrcState),
      muxLoop fuel states sch = some final →
      (∀ s ∈ states, SrcInv s) →
      (final.map SrcState.lines = states.map SrcState.lines ∧
       ∀ s ∈ final, s.fin = true ∧ s.recvd = s.lines) := by
  intro fuel
  induction fuel with
  | zero =>
    intro states sch final h _
    simp [muxLoop] at h
  | succ fuel ih =>
    intro states sch final h hinv
    simp only [muxLoop] at h
    have hinv1 : ∀ s ∈ (roundGo [] states sch).1, SrcInv s :=
      roundGo_inv states [] sch (by intro u hu; cases hu) hinv
    have hlines1 : (roundGo [] states sch).1.map SrcState.lines
        = states.map SrcState.lines := by
      rw [roundGo_lines states [] sch]
      simp
    by_cases hall : (roundGo [] states sch).1.all SrcState.fin = true
    · rw [if_pos hall] at h
      injection h with hfin
      rw [← hfin]
      refine ⟨hlines1, ?_⟩
      intro s hs
      have hsf : s.fin = true := List.all_eq_true.mp hall s hs
      rcases hinv1 s hs with ⟨_, hrec, _⟩ | ⟨hff, _⟩
      · exact ⟨hsf, hrec⟩
      · rw [hsf] at hff; cases hff
    · rw [if_neg hall] at h
      obtain ⟨hl2, hrest⟩ := ih (roundGo [] states sch).1 (roundGo [] states sch).2 final h hinv1
      exact ⟨by rw [hl2, hlines1], hrest⟩

theorem initPool_inv (streams : List (List String)) :
    ∀ s ∈ initPool streams, SrcInv s := by
  intro s hs
  obtain ⟨ls, _, hse⟩ := List.mem_map.mp hs
  refine Or.inr ⟨by rw [← hse], 0, by simp, by rw [← hse]; simp, ?_⟩
  rw [← hse]
  simpa using wrapLogStream_eq ls

theorem initPool_lines (streams : List (List String)) :
    (initPool streams).map SrcState.lines = streams := by
  simp [initPool, List.map_map, Function.comp_def]

/-- C8: in the multiplexer model — per-source pushed records made visible to
the consumer under an arbitrary poll/timeout schedule — whenever the consumer
loop returns, each source's received lines are exactly that source's emitted
lines, once each and in order (so N sources of 10 lines deliver exactly 10·N
lines), every finished flag is set (the loop returns exactly upon that), and
each worker pushes its lines followed by exactly one sentinel. -/
theorem C8_multiplexer_exactly_once (streams : List (List String)) (sch : List Bool)
    (fuel : Nat) (final : List SrcState)
    (h : muxLoop fuel (initPool streams) sch = some final) :
    final.map SrcState.recvd = streams ∧
    final.all SrcState.fin = true ∧
    ∀ ls : List String, wrapLogStream ls = ls.map some ++ [none] := by
  obtain ⟨hlines, hfin⟩ := muxLoop_spec fuel (initPool streams) sch final h
    (initPool_inv streams)
  refine ⟨?_, ?_, wrapLogStream_eq⟩
  · have hcongr : final.map SrcState.recvd = final.map SrcState.lines :=
      List.map_congr_left fun s hs => (hfin s hs).2
    rw [hcongr, hlines, initPool_lines]
  · rw [List.all_eq_true]
    intro s hs
    exact (hfin s hs).1

/-- C8 witness: three sources of ten lines each, on an all-deliver schedule:
the loop returns with exactly the thirty lines, each delivered once to its
source's record. -/
theorem C8_witness :
    (muxLoop 2 (initPool c8Streams) c8Schedule).map (fun l => l.map SrcState.recvd)
      = some c8Streams := by
  cases hm : muxLoop 2 (initPool c8Streams) c8Schedule with
  | none =>
    exfalso
    have hsome : (muxLoop 2 (initPool c8Streams) c8Schedule).isSome = true := by decide
    rw [hm] at hsome
    cases hsome
  | some final =>
    have := C8_multiplexer_exactly_once c8Streams c8Schedule 2 final hm
    simp only [Option.map_some']
    rw [this.1]
